import Mathlib

/-!
Verification of the locations aggregation / caching / write-orchestration
engine (`backend/locations/services.py`) against its natural-language
specification.  Python functions are shallowly embedded as executable Lean
definitions; Python `datetime` instants are modelled as integers on the
timeline, Python exceptions as `Except`, and Python dicts as insertion-ordered
association lists.
-/

set_option autoImplicit false

namespace Wikikuvaajat

/-! ### Python string primitives -/

/-- Python `str.strip()` on a character list: drop whitespace at both ends
(`List.rdropWhile p l` is `reverse (dropWhile p l.reverse)`). -/
def stripChars (l : List Char) : List Char :=
  List.rdropWhile Char.isWhitespace (l.dropWhile Char.isWhitespace)

/-- Python `str.strip()`. -/
def pyStrip (s : String) : String := ⟨stripChars s.data⟩

theorem stripChars_idem (l : List Char) : stripChars (stripChars l) = stripChars l := by
  unfold stripChars
  have h1 : List.dropWhile Char.isWhitespace
      (List.rdropWhile Char.isWhitespace (l.dropWhile Char.isWhitespace)) =
      List.rdropWhile Char.isWhitespace (l.dropWhile Char.isWhitespace) := by
    rw [List.dropWhile_eq_self_iff]
    intro hl
    have hp := List.rdropWhile_prefix Char.isWhitespace (l.dropWhile Char.isWhitespace)
    have hlen : 0 < (l.dropWhile Char.isWhitespace).length :=
      lt_of_lt_of_le hl hp.length_le
    have hget := List.IsPrefix.getElem hp hl
    rw [List.get_eq_getElem, hget]
    have h0 := List.dropWhile_get_zero_not Char.isWhitespace l hlen
    simpa using h0
  rw [h1, List.rdropWhile_idempotent]

theorem pyStrip_idem (s : String) : pyStrip (pyStrip s) = pyStrip s := by
  unfold pyStrip
  simp [stripChars_idem]

def allDigits (l : List Char) : Bool := l.all Char.isDigit

def natOfDigits (l : List Char) : Nat :=
  l.foldl (fun n c => 10 * n + (c.toNat - '0'.toNat)) 0

/-- Python `str.lower()` (ASCII case mapping suffices for the language codes
and category names handled here). -/
def pyLower (s : String) : String := ⟨s.data.map Char.toLower⟩

/-- Python `str.split(sep)` for a one-character separator. -/
def splitOnChar (sep : Char) : List Char → List (List Char)
  | [] => [[]]
  | c :: rest =>
    let r := splitOnChar sep rest
    if c = sep then [] :: r
    else
      match r with
      | [] => [[c]]
      | h :: t => (c :: h) :: t

/-- Python `','.join(...)`. -/
def joinComma (l : List String) : String :=
  match l with
  | [] => ""
  | h :: t => t.foldl (fun acc x => acc ++ "," ++ x) h

/-- Order-preserving de-duplication by a first-seen loop, as used for
`unique_candidates` in `_language_fallbacks` and (as the specification-side
description of key order) in the binding reconciler. -/
def firstOccurrences {α : Type} [DecidableEq α] (l : List α) : List α :=
  l.foldl (fun acc c => if c ∈ acc then acc else acc ++ [c]) []

theorem foldl_dedup_nodup {α : Type} [DecidableEq α] (l : List α) :
    ∀ acc : List α, acc.Nodup →
      (l.foldl (fun acc c => if c ∈ acc then acc else acc ++ [c]) acc).Nodup := by
  induction l with
  | nil => exact fun acc h => h
  | cons c l ih =>
    intro acc hacc
    rw [List.foldl_cons]
    by_cases hc : c ∈ acc
    · rw [if_pos hc]
      exact ih acc hacc
    · rw [if_neg hc]
      refine ih _ ?_
      rw [List.nodup_append]
      refine ⟨hacc, List.nodup_singleton c, ?_⟩
      intro x hx hxc
      rw [List.mem_singleton] at hxc
      subst hxc
      exact hc hx

theorem firstOccurrences_nodup {α : Type} [DecidableEq α] (l : List α) :
    (firstOccurrences l).Nodup :=
  foldl_dedup_nodup l [] List.nodup_nil

/-! ### Python values and dicts -/

/-- One `{value, label, wikipedia_url}` entry of a multi-valued attribute. -/
structure LinkedEntity where
  value : String
  label : String
  wikipediaUrl : String
deriving DecidableEq, Repr

/-- The Python values stored in the location dicts this code builds: strings,
floats (as rationals), ints, `None`, and lists of linked-entity dicts. -/
inductive PyVal where
  | vStr (s : String)
  | vNum (q : Rat)
  | vInt (n : Int)
  | vNone
  | vEntList (xs : List LinkedEntity)
deriving DecidableEq, Repr

/-- An insertion-ordered Python dict with unique keys. -/
abbrev PyDict := List (String × PyVal)

def dictGet : PyDict → String → Option PyVal
  | [], _ => none
  | (k', v) :: rest, k => if k = k' then some v else dictGet rest k

/-- Python dict assignment: overwrite in place, else append at the end. -/
def dictSet (d : PyDict) (k : String) (v : PyVal) : PyDict :=
  if (dictGet d k).isSome then
    d.map (fun p => if p.1 = k then (k, v) else p)
  else d ++ [(k, v)]

def pyTruthy : PyVal → Bool
  | .vStr s => ¬ s = ""
  | .vNum q => ¬ q = 0
  | .vInt n => ¬ n = 0
  | .vNone => false
  | .vEntList xs => ¬ xs.isEmpty

/-- Python `str(...)` on the values above (non-string reprs approximated;
all fields read through this in the embedded paths hold strings). -/
def pyStrOf : PyVal → String
  | .vStr s => s
  | .vNum q => toString q
  | .vInt n => toString n
  | .vNone => "None"
  | .vEntList _ => "[...]"

/-- `str(d.get(k) or '')`. -/
def dictStrGet (d : PyDict) (k : String) : String :=
  let v := (dictGet d k).getD .vNone
  pyStrOf (if pyTruthy v then v else .vStr "")

/-! ### Shared normalisation helpers (`_extract_wikidata_qid`,
`_normalize_commons_category`, `encode_location_id`, URL helpers) -/

def listStartsWith : List Char → List Char → Bool
  | _, [] => true
  | [], _ :: _ => false
  | c :: rest, p :: ps => c = p && listStartsWith rest ps

/-- `re.search(r'(Q\d+)', value, re.IGNORECASE)`: leftmost `q`/`Q` followed by
at least one digit, with the maximal digit run. -/
def extractQidDigits : List Char → Option (List Char)
  | [] => none
  | c :: rest =>
    if c = 'q' ∨ c = 'Q' then
      let ds := rest.takeWhile Char.isDigit
      if ds.isEmpty then extractQidDigits rest else some ds
    else extractQidDigits rest

/-- `_extract_wikidata_qid` (`.upper()` turns the leading `q` into `Q`). -/
def extractWikidataQid (s : String) : String :=
  match extractQidDigits s.data with
  | none => ""
  | some ds => ⟨'Q' :: ds⟩

/-- `re.sub(r'\s+', ' ', ...)`: collapse every whitespace run to one space. -/
def collapseWs : List Char → List Char
  | [] => []
  | c :: rest =>
    if c.isWhitespace then ' ' :: collapseWs (rest.dropWhile Char.isWhitespace)
    else c :: collapseWs rest
termination_by l => l.length
decreasing_by
  · simpa using Nat.lt_succ_of_le (List.dropWhile_suffix _).length_le
  · simp

/-- `_normalize_commons_category`. -/
def normalizeCommonsCategory (value : String) : String :=
  let category := pyStrip value
  if category = "" then ""
  else
    let category :=
      if listStartsWith (pyLower category).data "category:".data then
        pyStrip ⟨(category.data.dropWhile (fun c => ¬ c = ':')).drop 1⟩
      else category
    let category := category.data.map (fun c => if c = '_' then ' ' else c)
    ⟨collapseWs category⟩

def hexDigitChar (n : Nat) : Char :=
  "0123456789ABCDEF".data.getD n 'X'

def isUrlSafeByte (safe : List Char) (b : UInt8) : Bool :=
  (48 ≤ b.toNat && b.toNat ≤ 57) || (65 ≤ b.toNat && b.toNat ≤ 90) ||
    (97 ≤ b.toNat && b.toNat ≤ 122) ||
    b.toNat = 45 || b.toNat = 46 || b.toNat = 95 || b.toNat = 126 ||
    safe.any (fun c => c.toNat = b.toNat)

/-- `urllib.parse.quote(s, safe=...)`: percent-encode the UTF-8 bytes. -/
def percentEncode (safe : List Char) (s : String) : String :=
  ⟨s.toUTF8.toList.foldr
    (fun b acc =>
      if isUrlSafeByte safe b then Char.ofNat b.toNat :: acc
      else '%' :: hexDigitChar (b.toNat / 16) :: hexDigitChar (b.toNat % 16) :: acc)
    []⟩

/-- `encode_location_id`: `quote(uri, safe='')`. -/
def encodeLocationId (uri : String) : String := percentEncode [] uri

def hexVal (c : Char) : Option Nat :=
  if '0' ≤ c ∧ c ≤ '9' then some (c.toNat - '0'.toNat)
  else if 'a' ≤ c ∧ c ≤ 'f' then some (c.toNat - 'a'.toNat + 10)
  else if 'A' ≤ c ∧ c ≤ 'F' then some (c.toNat - 'A'.toNat + 10)
  else none

/-- `urllib.parse.unquote`: decode `%HH` escapes to bytes (invalid escapes are
kept verbatim) and re-interpret the bytes as UTF-8, falling back to the
undecoded text when the byte sequence is not valid UTF-8 (Python substitutes
replacement characters there; the fallback only affects a display name). -/
def percentDecodeBytes : List Char → List UInt8
  | [] => []
  | '%' :: h1 :: h2 :: rest =>
    match hexVal h1, hexVal h2 with
    | some a, some b => UInt8.ofNat (a * 16 + b) :: percentDecodeBytes rest
    | _, _ => (String.singleton '%').toUTF8.toList ++ percentDecodeBytes (h1 :: h2 :: rest)
  | c :: rest => (String.singleton c).toUTF8.toList ++ percentDecodeBytes rest

def pyUnquote (s : String) : String :=
  match String.fromUTF8? ⟨(percentDecodeBytes s.data).toArray⟩ with
  | some t => t
  | none => s

def commonsThumbWidth : Nat := 320

/-- `_commons_file_url`. -/
def commonsFileUrl (filename : String) : String :=
  let normalized := pyStrip filename
  if normalized = "" then ""
  else
    let normalized :=
      if listStartsWith (pyLower normalized).data "file:".data then
        pyStrip ⟨(normalized.data.dropWhile (fun c => ¬ c = ':')).drop 1⟩
      else normalized
    if normalized = "" then ""
    else
      let normalized : String := ⟨normalized.data.map (fun c => if c = ' ' then '_' else c)⟩
      "https://commons.wikimedia.org/wiki/Special:FilePath/" ++ percentEncode [] normalized

/-- `_commons_thumbnail_url` (the default width is always used here). -/
def commonsThumbnailUrl (filename : String) : String :=
  let baseUrl := commonsFileUrl filename
  if baseUrl = "" then "" else baseUrl ++ "?width=" ++ toString commonsThumbWidth

/-- `_commons_category_url`. -/
def commonsCategoryUrl (categoryName : String) : String :=
  let normalized := normalizeCommonsCategory categoryName
  if normalized = "" then ""
  else
    let title : String :=
      ⟨("Category:" ++ normalized).data.map (fun c => if c = ' ' then '_' else c)⟩
    "https://commons.wikimedia.org/wiki/" ++ percentEncode [':', '/'] title

/-- `_view_it_url`. -/
def viewItUrl (qid : String) : String :=
  let normalized := extractWikidataQid qid
  if normalized = "" then ""
  else "https://view-it.toolforge.org/?q=" ++ percentEncode [] normalized

/-! ### Binding rows, coordinate parsing and `_format_binding` -/

/-- One SPARQL binding row: variable name → the `value` field of its binding
dict (the only part `_binding_value` reads). -/
abbrev Binding := List (String × String)

def bindingLookup : Binding → String → Option String
  | [], _ => none
  | (k', v) :: rest, k => if k = k' then some v else bindingLookup rest k

/-- `_binding_value(binding, keys, default)`. -/
def bindingValue (b : Binding) (keys : List String) (dflt : String) : String :=
  match keys with
  | [] => dflt
  | k :: rest =>
    match bindingLookup b k with
    | some v => v
    | none => bindingValue b rest dflt

def natOfDigitsRat (ds : List Char) : Rat := (natOfDigits ds : Nat)

def fracOfDigits (ds : List Char) : Rat := natOfDigitsRat ds / ((10 : Rat) ^ ds.length)

/-- One `[+-]?\d+(?:\.\d+)?` group of the `POINT` regex (Python converts the
matched text with `float(...)`; the value is modelled exactly as a rational
rather than with IEEE rounding). Returns the value and the rest of the
input. -/
def parsePointNumber (l : List Char) : Option (Rat × List Char) :=
  let signAndRest : Rat × List Char :=
    match l with
    | '+' :: rest => (1, rest)
    | '-' :: rest => (-1, rest)
    | _ => (1, l)
  let sign := signAndRest.1
  let l1 := signAndRest.2
  let ds := l1.takeWhile Char.isDigit
  if ds.isEmpty then none
  else
    let l2 := l1.drop ds.length
    match l2 with
    | '.' :: l3 =>
      let fs := l3.takeWhile Char.isDigit
      if fs.isEmpty then some (sign * natOfDigitsRat ds, l2)
      else some (sign * (natOfDigitsRat ds + fracOfDigits fs), l3.drop fs.length)
    | _ => some (sign * natOfDigitsRat ds, l2)

/-- The `\s*[,\s]\s*` separator of the `POINT` regex. -/
def parsePointSep (l : List Char) : Option (List Char) :=
  let l1 := l.dropWhile Char.isWhitespace
  match l1 with
  | ',' :: rest => some (rest.dropWhile Char.isWhitespace)
  | _ => if (l.takeWhile Char.isWhitespace).isEmpty then none else some l1

/-- One attempt of the `POINT\s*\(\s*num\s*[,\s]\s*num\s*\)` pattern at the
head of the input (case-insensitive `POINT`); returns `(latitude, longitude)`
— the regex captures `(lon, lat)` and `_parse_coord_to_lat_lon` swaps them. -/
def matchPointAt (l : List Char) : Option (Rat × Rat) :=
  match l with
  | c1 :: c2 :: c3 :: c4 :: c5 :: rest =>
    if c1.toLower = 'p' ∧ c2.toLower = 'o' ∧ c3.toLower = 'i' ∧ c4.toLower = 'n' ∧
        c5.toLower = 't' then
      match rest.dropWhile Char.isWhitespace with
      | '(' :: r2 =>
        match parsePointNumber (r2.dropWhile Char.isWhitespace) with
        | none => none
        | some (lon, r4) =>
          match parsePointSep r4 with
          | none => none
          | some r5 =>
            match parsePointNumber r5 with
            | none => none
            | some (lat, r6) =>
              match r6.dropWhile Char.isWhitespace with
              | ')' :: _ => some (lat, lon)
              | _ => none
      | _ => none
    else none
  | _ => none

/-- `_parse_coord_to_lat_lon`: `re.search` tries the pattern at every
position. -/
def searchPoint : List Char → Option (Rat × Rat)
  | [] => none
  | c :: rest =>
    match matchPointAt (c :: rest) with
    | some r => some r
    | none => searchPoint rest

def parseCoordToLatLon (coordValue : String) : Option (Rat × Rat) :=
  searchPoint coordValue.data

/-- Python `float(str)` on the plain decimal/exponent notation produced by
SPARQL numeric literals (`inf`/`nan`/underscore forms are not modelled; the
value is exact rather than IEEE-rounded). -/
def pyFloat? (s : String) : Option Rat :=
  let l := stripChars s.data
  let signAndRest : Rat × List Char :=
    match l with
    | '+' :: rest => (1, rest)
    | '-' :: rest => (-1, rest)
    | _ => (1, l)
  let sign := signAndRest.1
  let l1 := signAndRest.2
  let ds := l1.takeWhile Char.isDigit
  let l2 := l1.drop ds.length
  let mantissa : Option (Rat × List Char) :=
    match l2 with
    | '.' :: l2' =>
      let fs := l2'.takeWhile Char.isDigit
      if ds.isEmpty ∧ fs.isEmpty then none
      else some (natOfDigitsRat ds + fracOfDigits fs, l2'.drop fs.length)
    | _ => if ds.isEmpty then none else some (natOfDigitsRat ds, l2)
  match mantissa with
  | none => none
  | some (m, l3) =>
    match l3 with
    | [] => some (sign * m)
    | e :: l4 =>
      if e = 'e' ∨ e = 'E' then
        let esignAndRest : Int × List Char :=
          match l4 with
          | '+' :: r => (1, r)
          | '-' :: r => (-1, r)
          | _ => (1, l4)
        let eds := esignAndRest.2.takeWhile Char.isDigit
        if eds.isEmpty ∨ ¬ (esignAndRest.2.drop eds.length).isEmpty then none
        else some (sign * m * (10 : Rat) ^ (esignAndRest.1 * (natOfDigits eds : Int)))
      else none

def listContains : List Char → List Char → Bool
  | [], sub => sub.isEmpty
  | c :: rest, sub => listStartsWith (c :: rest) sub || listContains rest sub

/-- `uri.rsplit('/', 1)[-1]`. -/
def lastPathSegment (uri : String) : String :=
  ⟨(splitOnChar '/' uri.data).getLastD []⟩

/-- `_resolve_sparql_image`: `(image_url, image_thumb_url, image_name)`. -/
def resolveSparqlImage (imageValue : String) : String × String × String :=
  let rawValue := pyStrip imageValue
  if rawValue = "" then ("", "", "")
  else if listStartsWith rawValue.data "http://".data ∨
      listStartsWith rawValue.data "https://".data then
    let imageUrl := rawValue
    let imageThumbUrl :=
      if listContains imageUrl.data "commons.wikimedia.org/wiki/Special:FilePath/".data then
        let separator := if imageUrl.data.any (fun c => c = '?') then "&" else "?"
        imageUrl ++ separator ++ "width=" ++ toString commonsThumbWidth
      else imageUrl
    let beforeQuery : List Char := imageUrl.data.takeWhile (fun c => ¬ c = '?')
    let nameCandidate :=
      pyStrip (pyUnquote (lastPathSegment ⟨List.rdropWhile (fun c => c = '/') beforeQuery⟩))
    let nameCandidate :=
      if listStartsWith (pyLower nameCandidate).data "file:".data then
        pyStrip ⟨(nameCandidate.data.dropWhile (fun c => ¬ c = ':')).drop 1⟩
      else nameCandidate
    (imageUrl, imageThumbUrl, nameCandidate)
  else (commonsFileUrl rawValue, commonsThumbnailUrl rawValue, rawValue)

/-- The `Location` dataclass (floats as rationals), field order as declared. -/
structure Location where
  id : String
  uri : String
  name : String
  description : String
  latitude : Rat
  longitude : Rat
  dateModified : String
  commonsCategory : String
  imageName : String
  imageUrl : String
  imageThumbUrl : String
  inceptionP571 : String
  locationP276 : String
  locationP276Label : String
  locationP276WikipediaUrl : String
  architectP84 : String
  architectP84Label : String
  architectP84WikipediaUrl : String
  officialClosureDateP3999 : String
  stateOfUseP5817 : String
  stateOfUseP5817Label : String
  stateOfUseP5817WikipediaUrl : String
  addressText : String
  postalCode : String
  municipalityP131 : String
  municipalityP131Label : String
  municipalityP131WikipediaUrl : String
  instanceOfP31 : String
  instanceOfP31Label : String
  instanceOfP31WikipediaUrl : String
  architecturalStyleP149 : String
  architecturalStyleP149Label : String
  architecturalStyleP149WikipediaUrl : String
  heritageDesignationP1435 : String
  heritageDesignationP1435Label : String
  heritageDesignationP1435WikipediaUrl : String
  locatedOnStreetP669 : String
  locatedOnStreetP669Label : String
  locatedOnStreetP669WikipediaUrl : String
  houseNumberP670 : String
  routeInstructionP2795 : String
  ysoIdP2347 : String
  yleTopicIdP8309 : String
  kantoIdP8980 : String
  protectedBuildingsRegisterInFinlandIdP5310 : String
  rkyNationalBuiltHeritageEnvironmentIdP4009 : String
  permanentBuildingNumberVtjPrtP3824 : String
  protectedBuildingsRegisterInFinlandBuildingIdP5313 : String
  helsinkiPersistentBuildingIdRatuP8355 : String
deriving DecidableEq, Repr

/-- `Location.__dict__`: the dataclass instance dict, keys in field order. -/
def locationToDict (loc : Location) : PyDict :=
  [("id", .vStr loc.id), ("uri", .vStr loc.uri), ("name", .vStr loc.name),
   ("description", .vStr loc.description), ("latitude", .vNum loc.latitude),
   ("longitude", .vNum loc.longitude), ("date_modified", .vStr loc.dateModified),
   ("commons_category", .vStr loc.commonsCategory), ("image_name", .vStr loc.imageName),
   ("image_url", .vStr loc.imageUrl), ("image_thumb_url", .vStr loc.imageThumbUrl),
   ("inception_p571", .vStr loc.inceptionP571),
   ("location_p276", .vStr loc.locationP276),
   ("location_p276_label", .vStr loc.locationP276Label),
   ("location_p276_wikipedia_url", .vStr loc.locationP276WikipediaUrl),
   ("architect_p84", .vStr loc.architectP84),
   ("architect_p84_label", .vStr loc.architectP84Label),
   ("architect_p84_wikipedia_url", .vStr loc.architectP84WikipediaUrl),
   ("official_closure_date_p3999", .vStr loc.officialClosureDateP3999),
   ("state_of_use_p5817", .vStr loc.stateOfUseP5817),
   ("state_of_use_p5817_label", .vStr loc.stateOfUseP5817Label),
   ("state_of_use_p5817_wikipedia_url", .vStr loc.stateOfUseP5817WikipediaUrl),
   ("address_text", .vStr loc.addressText), ("postal_code", .vStr loc.postalCode),
   ("municipality_p131", .vStr loc.municipalityP131),
   ("municipality_p131_label", .vStr loc.municipalityP131Label),
   ("municipality_p131_wikipedia_url", .vStr loc.municipalityP131WikipediaUrl),
   ("instance_of_p31", .vStr loc.instanceOfP31),
   ("instance_of_p31_label", .vStr loc.instanceOfP31Label),
   ("instance_of_p31_wikipedia_url", .vStr loc.instanceOfP31WikipediaUrl),
   ("architectural_style_p149", .vStr loc.architecturalStyleP149),
   ("architectural_style_p149_label", .vStr loc.architecturalStyleP149Label),
   ("architectural_style_p149_wikipedia_url", .vStr loc.architecturalStyleP149WikipediaUrl),
   ("heritage_designation_p1435", .vStr loc.heritageDesignationP1435),
   ("heritage_designation_p1435_label", .vStr loc.heritageDesignationP1435Label),
   ("heritage_designation_p1435_wikipedia_url", .vStr loc.heritageDesignationP1435WikipediaUrl),
   ("located_on_street_p669", .vStr loc.locatedOnStreetP669),
   ("located_on_street_p669_label", .vStr loc.locatedOnStreetP669Label),
   ("located_on_street_p669_wikipedia_url", .vStr loc.locatedOnStreetP669WikipediaUrl),
   ("house_number_p670", .vStr loc.houseNumberP670),
   ("route_instruction_p2795", .vStr loc.routeInstructionP2795),
   ("yso_id_p2347", .vStr loc.ysoIdP2347),
   ("yle_topic_id_p8309", .vStr loc.yleTopicIdP8309),
   ("kanto_id_p8980", .vStr loc.kantoIdP8980),
   ("protected_buildings_register_in_finland_id_p5310",
     .vStr loc.protectedBuildingsRegisterInFinlandIdP5310),
   ("rky_national_built_heritage_environment_id_p4009",
     .vStr loc.rkyNationalBuiltHeritageEnvironmentIdP4009),
   ("permanent_building_number_vtj_prt_p3824",
     .vStr loc.permanentBuildingNumberVtjPrtP3824),
   ("protected_buildings_register_in_finland_building_id_p5313",
     .vStr loc.protectedBuildingsRegisterInFinlandBuildingIdP5313),
   ("helsinki_persistent_building_id_ratu_p8355",
     .vStr loc.helsinkiPersistentBuildingIdRatuP8355)]

/-- `_format_binding`: build a `Location` from one binding row, raising
`SPARQLServiceError` (`Except.error`) for a missing URI or unusable
coordinates. -/
def formatBinding (b : Binding) : Except String Location :=
  let uri := bindingValue b ["item", "uri", "id"] ""
  if uri = "" then .error "SPARQL results missing item URI."
  else
    let description := bindingValue b ["itemDescription", "description", "comment"] ""
    let name0 := bindingValue b ["itemLabel", "label", "name"] ""
    let name : String :=
      if name0 = "" then
        ⟨(lastPathSegment uri).data.map (fun c => if c = '_' then ' ' else c)⟩
      else name0
    let dateModified := bindingValue b ["dateModified"] ""
    let latValue := bindingValue b ["lat", "latitude"] ""
    let lonValue := bindingValue b ["lon", "long", "longitude"] ""
    let coords : Except String (Rat × Rat) :=
      if ¬ latValue = "" ∧ ¬ lonValue = "" then
        match pyFloat? latValue, pyFloat? lonValue with
        | some la, some lo => .ok (la, lo)
        | _, _ => .error "SPARQL results contain invalid coordinates."
      else
        match parseCoordToLatLon (bindingValue b ["coord", "coordinate", "location"] "") with
        | none => .error "SPARQL results missing coordinate bindings."
        | some ll => .ok ll
    match coords with
    | .error e => .error e
    | .ok (latitude, longitude) =>
      let imageTriple := resolveSparqlImage (bindingValue b ["imageName", "image_name", "image"] "")
      .ok {
        id := encodeLocationId uri
        uri := uri
        name := name
        description := description
        latitude := latitude
        longitude := longitude
        dateModified := dateModified
        commonsCategory :=
          normalizeCommonsCategory (bindingValue b ["commonsCategory", "commons_category"] "")
        imageName := imageTriple.2.2
        imageUrl := imageTriple.1
        imageThumbUrl := imageTriple.2.1
        inceptionP571 := bindingValue b ["inceptionP571", "inception"] ""
        locationP276 := bindingValue b ["locationP276", "location"] ""
        locationP276Label := bindingValue b ["locationP276Label", "locationLabel"] ""
        locationP276WikipediaUrl :=
          bindingValue b ["locationP276WikipediaUrl", "locationWikipediaUrl"] ""
        architectP84 := bindingValue b ["architectP84", "architect"] ""
        architectP84Label := bindingValue b ["architectP84Label", "architectLabel"] ""
        architectP84WikipediaUrl :=
          bindingValue b ["architectP84WikipediaUrl", "architectWikipediaUrl"] ""
        officialClosureDateP3999 :=
          bindingValue b ["officialClosureDateP3999", "officialClosureDate", "closureDate"] ""
        stateOfUseP5817 := bindingValue b ["stateOfUseP5817", "stateOfUse"] ""
        stateOfUseP5817Label := bindingValue b ["stateOfUseP5817Label", "stateOfUseLabel"] ""
        stateOfUseP5817WikipediaUrl :=
          bindingValue b ["stateOfUseP5817WikipediaUrl", "stateOfUseWikipediaUrl"] ""
        addressText := bindingValue b ["addressTextP6375", "streetAddressP6375", "addressText"] ""
        postalCode := bindingValue b ["postalCodeP281", "postalCode"] ""
        municipalityP131 :=
          bindingValue b ["municipalityP131", "administrativeTerritorialEntityP131",
            "municipality"] ""
        municipalityP131Label :=
          bindingValue b ["municipalityP131Label", "administrativeTerritorialEntityP131Label",
            "municipalityLabel"] ""
        municipalityP131WikipediaUrl :=
          bindingValue b ["municipalityP131WikipediaUrl",
            "administrativeTerritorialEntityP131WikipediaUrl", "municipalityWikipediaUrl"] ""
        instanceOfP31 := bindingValue b ["instanceOfP31", "instanceOf"] ""
        instanceOfP31Label := bindingValue b ["instanceOfP31Label", "instanceOfLabel"] ""
        instanceOfP31WikipediaUrl :=
          bindingValue b ["instanceOfP31WikipediaUrl", "instanceOfWikipediaUrl"] ""
        architecturalStyleP149 := bindingValue b ["architecturalStyleP149", "architecturalStyle"] ""
        architecturalStyleP149Label :=
          bindingValue b ["architecturalStyleP149Label", "architecturalStyleLabel"] ""
        architecturalStyleP149WikipediaUrl :=
          bindingValue b ["architecturalStyleP149WikipediaUrl",
            "architecturalStyleWikipediaUrl"] ""
        heritageDesignationP1435 :=
          bindingValue b ["heritageDesignationP1435", "heritageDesignation"] ""
        heritageDesignationP1435Label :=
          bindingValue b ["heritageDesignationP1435Label", "heritageDesignationLabel"] ""
        heritageDesignationP1435WikipediaUrl :=
          bindingValue b ["heritageDesignationP1435WikipediaUrl",
            "heritageDesignationWikipediaUrl"] ""
        locatedOnStreetP669 := bindingValue b ["locatedOnStreetP669", "locatedOnStreet"] ""
        locatedOnStreetP669Label :=
          bindingValue b ["locatedOnStreetP669Label", "locatedOnStreetLabel"] ""
        locatedOnStreetP669WikipediaUrl :=
          bindingValue b ["locatedOnStreetP669WikipediaUrl", "locatedOnStreetWikipediaUrl"] ""
        houseNumberP670 := bindingValue b ["houseNumberP670", "houseNumber"] ""
        routeInstructionP2795 :=
          bindingValue b ["routeInstructionP2795", "directionsP2795", "routeInstruction"] ""
        ysoIdP2347 := bindingValue b ["ysoIdP2347", "ysoId"] ""
        yleTopicIdP8309 := bindingValue b ["yleTopicIdP8309", "yleTopicId"] ""
        kantoIdP8980 := bindingValue b ["kantoIdP8980", "kantoId"] ""
        protectedBuildingsRegisterInFinlandIdP5310 :=
          bindingValue b ["protectedBuildingsRegisterInFinlandIdP5310",
            "protectedBuildingsRegisterIdP5310"] ""
        rkyNationalBuiltHeritageEnvironmentIdP4009 :=
          bindingValue b ["rkyNationalBuiltHeritageEnvironmentIdP4009", "rkyIdP4009"] ""
        permanentBuildingNumberVtjPrtP3824 :=
          bindingValue b ["permanentBuildingNumberVtjPrtP3824",
            "permanentBuildingNumberP3824"] ""
        protectedBuildingsRegisterInFinlandBuildingIdP5313 :=
          bindingValue b ["protectedBuildingsRegisterInFinlandBuildingIdP5313",
            "protectedBuildingsRegisterBuildingIdP5313"] ""
        helsinkiPersistentBuildingIdRatuP8355 :=
          bindingValue b ["helsinkiPersistentBuildingIdRatuP8355",
            "helsinkiPersistentBuildingIdP8355"] ""
      }

/-! ### Multi-value merge (`_collect_linked_entities`,
`_apply_architect_values`) -/

/-- One step of the `_collect_linked_entities` loop, over the internal
`(dedupe_key, entry)` association (the running `entities_by_key` plus
`ordered_keys`). -/
def collectStep (valueKeys labelKeys wikiKeys : List String)
    (acc : List (String × LinkedEntity)) (b : Binding) : List (String × LinkedEntity) :=
  let value := pyStrip (bindingValue b valueKeys "")
  let label := pyStrip (bindingValue b labelKeys "")
  let wikipediaUrl := pyStrip (bindingValue b wikiKeys "")
  if value = "" ∧ label = "" ∧ wikipediaUrl = "" then acc
  else
    let dedupeKey :=
      pyLower (if ¬ value = "" then value else if ¬ label = "" then label else wikipediaUrl)
    if acc.any (fun p => p.1 = dedupeKey) then
      acc.map (fun p =>
        if p.1 = dedupeKey then
          (p.1,
            { value := if p.2.value = "" ∧ ¬ value = "" then value else p.2.value
              label := if p.2.label = "" ∧ ¬ label = "" then label else p.2.label
              wikipediaUrl :=
                if p.2.wikipediaUrl = "" ∧ ¬ wikipediaUrl = "" then wikipediaUrl
                else p.2.wikipediaUrl })
        else p)
    else acc ++ [(dedupeKey, ⟨value, label, wikipediaUrl⟩)]

def collectLinkedEntitiesWithKeys (bindings : List Binding)
    (valueKeys labelKeys wikiKeys : List String) : List (String × LinkedEntity) :=
  bindings.foldl (collectStep valueKeys labelKeys wikiKeys) []

/-- `_collect_linked_entities`. -/
def collectLinkedEntities (bindings : List Binding)
    (valueKeys labelKeys wikiKeys : List String) : List LinkedEntity :=
  (collectLinkedEntitiesWithKeys bindings valueKeys labelKeys wikiKeys).map (·.2)

def architectValueKeys : List String := ["architectP84", "architect"]
def architectLabelKeys : List String := ["architectP84Label", "architectLabel"]
def architectWikiKeys : List String := ["architectP84WikipediaUrl", "architectWikipediaUrl"]

/-- `_apply_architect_values`. -/
def applyArchitectValues (item : PyDict) (bindings : List Binding) : PyDict :=
  let architectValues :=
    collectLinkedEntities bindings architectValueKeys architectLabelKeys architectWikiKeys
  match architectValues with
  | [] => item
  | firstArchitect :: _ =>
    let enriched := dictSet item "architect_p84_values" (.vEntList architectValues)
    let enriched := dictSet enriched "architect_p84"
      (.vStr (if ¬ firstArchitect.value = "" then firstArchitect.value
        else dictStrGet enriched "architect_p84"))
    let enriched := dictSet enriched "architect_p84_label"
      (.vStr (if ¬ firstArchitect.label = "" then firstArchitect.label
        else dictStrGet enriched "architect_p84_label"))
    dictSet enriched "architect_p84_wikipedia_url"
      (.vStr (if ¬ firstArchitect.wikipediaUrl = "" then firstArchitect.wikipediaUrl
        else dictStrGet enriched "architect_p84_wikipedia_url"))

/-! ### Fallback query loops (`fetch_locations`, `fetch_location_detail`) -/

/-- `str(item.get('uri') or '').strip()`, the grouping key of the merge. -/
def itemUriKey (item : PyDict) : String := pyStrip (dictStrGet item "uri")

/-- One step of the grouping pass of `fetch_locations` /
`fetch_location_detail`: rows whose `_format_binding` raises, or whose URI
strips to empty, are skipped; the first row of a URI installs its formatted
item; every row of a known URI is appended to that URI's binding list. -/
def groupStep (groups : List (String × PyDict × List Binding)) (b : Binding) :
    List (String × PyDict × List Binding) :=
  match formatBinding b with
  | .error _ => groups
  | .ok loc =>
    let item := locationToDict loc
    let uri := itemUriKey item
    if uri = "" then groups
    else if groups.any (fun g => g.1 = uri) then
      groups.map (fun g => if g.1 = uri then (g.1, g.2.1, g.2.2 ++ [b]) else g)
    else groups ++ [(uri, item, [b])]

/-- `formatted_by_uri` and `bindings_by_uri` built in one loop. -/
def groupByUri (bs : List Binding) : List (String × PyDict × List Binding) :=
  bs.foldl groupStep []

/-- The grouping key contributed by one binding row, when its record
formation succeeds with a non-empty URI. -/
def rowUriKey (b : Binding) : Option String :=
  match formatBinding b with
  | .error _ => none
  | .ok loc =>
    let u := itemUriKey (locationToDict loc)
    if u = "" then none else some u

/-- The merge of `fetch_locations` lines 1105–1125. -/
def mergeBindings (bs : List Binding) : List PyDict :=
  (groupByUri bs).map (fun g => applyArchitectValues g.2.1 g.2.2)

/-- The per-language query loop shared by the fetch functions: `oracle lang`
is the outcome of `_query_sparql(<query built for lang>)`. Returns the final
`bindings`, `last_error` and `had_successful_query` loop state. -/
def runQueryLoop (oracle : String → Except String (List Binding)) :
    List String → List Binding → Option String → Bool →
      List Binding × Option String × Bool
  | [], bs, lastError, hadSuccess => (bs, lastError, hadSuccess)
  | lang :: rest, bs, lastError, hadSuccess =>
    match oracle lang with
    | .error e => runQueryLoop oracle rest bs (some e) hadSuccess
    | .ok newBs =>
      if newBs.isEmpty then runQueryLoop oracle rest newBs lastError true
      else (newBs, lastError, true)

/-! ### Language fallback chain (`_language_fallbacks`,
`_sparql_label_languages`, `build_locations_sparql_query`) -/

/-- `settings.LANGUAGES` codes from `backend/config/settings.py`. -/
def settingsLanguages : List String := ["en", "sv", "fi"]

/-- `settings.LANGUAGE_CODE`. -/
def settingsLanguageCode : String := "en"

/-- `lang.lower().replace('_', '-')`. -/
def normalizeLangTag (s : String) : String :=
  ⟨(pyLower s).data.map (fun c => if c = '_' then '-' else c)⟩

/-- `normalized.split('-')[0]`. -/
def baseLangOf (normalized : String) : String :=
  ⟨(splitOnChar '-' normalized.data).headD []⟩

/-- `_language_fallbacks`. -/
def languageFallbacks (lang : Option String) (includeMul : Bool) : List String :=
  let allowed := settingsLanguages.map pyLower
  let defaultLang := pyLower settingsLanguageCode
  let fromLang : List String :=
    match lang with
    | none => []
    | some l =>
      if l = "" then []
      else
        let normalized := normalizeLangTag l
        (if normalized ∈ allowed then [normalized] else []) ++
          (if baseLangOf normalized ∈ allowed then [baseLangOf normalized] else [])
  let candidates := fromLang ++ (if defaultLang ∈ allowed then [defaultLang] else []) ++
    (if "en" ∈ allowed then ["en"] else []) ++ (if includeMul then ["mul"] else [])
  firstOccurrences candidates

/-- `_sparql_label_languages` (the comma list placed in the label-service
clause of every query). -/
def sparqlLabelLanguages (preferredLang : Option String) : String :=
  let normalized := normalizeLangTag (pyStrip (preferredLang.getD ""))
  let withLang :=
    if normalized = "" then []
    else
      [normalized] ++ (if baseLangOf normalized = "" then [] else [baseLangOf normalized])
  let candidates := withLang ++ ["en", "mul"]
  let unique := candidates.foldl
    (fun acc c => if ¬ c = "" ∧ c ∉ acc then acc ++ [c] else acc) []
  joinComma unique

/-- `build_locations_sparql_query`: `fallbacks[0] if fallbacks else 'en'`. -/
def buildQueryLang (lang : Option String) : String :=
  (languageFallbacks lang false).headD "en"

/-- The label-service language list of the constructed list query:
`_sparql_label_languages(query_lang).replace('\x22', '')`. -/
def listQueryLabelLanguages (lang : Option String) : String :=
  ⟨(sparqlLabelLanguages (some (buildQueryLang lang))).data.filter (fun c => ¬ c = '"')⟩

/-! ### Metric cache freshness (`_image_count_cache_ttl_seconds`,
`_image_count_cache_cutoff`, `_is_cache_entry_fresh`) -/

/-- `_image_count_cache_ttl_seconds`: the configured TTL, clamped so that a
non-positive setting becomes `0` ("never expires"). -/
def imageCountCacheTtlSeconds (settingValue : Int) : Int :=
  if settingValue > 0 then settingValue else 0

/-- `_image_count_cache_cutoff`: `None` when the TTL is non-positive, else
`now - timedelta(seconds=ttl)`. -/
def imageCountCacheCutoff (settingValue now : Int) : Option Int :=
  let ttl := imageCountCacheTtlSeconds settingValue
  if ttl ≤ 0 then none else some (now - ttl)

/-- `_is_cache_entry_fresh`. -/
def isCacheEntryFresh (fetchedAt : Option Int) (cutoff : Option Int) : Bool :=
  match cutoff with
  | none => true
  | some c =>
    match fetchedAt with
    | none => false
    | some f => decide (f ≥ c)

/-- One row of `CommonsCategoryImageCountCache` / `ViewItImageCountCache`. -/
structure CacheEntry where
  imageCount : Int
  fetchedAt : Option Int
deriving DecidableEq, Repr

/-- The freshness decision made per key in `_commons_counts_for_categories` /
`_view_it_counts_for_qids`: a key is stale when `cache_entry is None or not
_is_cache_entry_fresh(...)`; this is the complement. -/
def cachedKeyIsFresh (entry : Option CacheEntry) (settingValue now : Int) : Bool :=
  match entry with
  | none => false
  | some e => isCacheEntryFresh e.fetchedAt (imageCountCacheCutoff settingValue now)

/-! ### Wikidata time datavalue (`_wikidata_time_datavalue`) -/

def wikidataCalendarModel : String := "http://www.wikidata.org/entity/Q1985727"

/-- The fields of the JSON time datavalue built by `_wikidata_time_datavalue`. -/
structure TimeDataValue where
  time : String
  timezone : Int
  before : Int
  after : Int
  precision : Nat
  calendarmodel : String
deriving DecidableEq, Repr

/-- `%02d` for the values (≤ 99) occurring in time encodings. -/
def pad2 (n : Nat) : String := if n < 10 then "0" ++ toString n else toString n

/-- `%04d` for the values (≤ 9999) occurring in time encodings. -/
def pad4 (n : Nat) : String :=
  if n < 10 then "000" ++ toString n
  else if n < 100 then "00" ++ toString n
  else if n < 1000 then "0" ++ toString n
  else toString n

/-- Gregorian leap-year rule used by Python's `datetime.date`. -/
def isLeapYear (y : Nat) : Bool := (y % 4 == 0 && y % 100 != 0) || (y % 400 == 0)

def daysInMonth (y m : Nat) : Nat :=
  if m = 2 then (if isLeapYear y then 29 else 28)
  else if m = 4 ∨ m = 6 ∨ m = 9 ∨ m = 11 then 30
  else 31

/-- Validity domain of Python's `datetime.date(y, m, d)`. -/
def isValidDate (y m d : Nat) : Bool :=
  decide (1 ≤ y) && decide (y ≤ 9999) && decide (1 ≤ m) && decide (m ≤ 12) &&
    decide (1 ≤ d) && decide (d ≤ daysInMonth y m)

/-- Body of `_wikidata_time_datavalue` after the input has been stripped.
The three regex alternatives `\d{4}`, `\d{4}-\d{2}` and `\d{4}-\d{2}-\d{2}`
are decided by splitting on `-` and checking digit-run lengths. -/
def wikidataTimeDatavalueN (normalized : String) : Except String TimeDataValue :=
  if normalized = "" then .error "Empty time value is not allowed."
  else
    match normalized.splitOn "-" with
    | [y] =>
      if y.data.length = 4 ∧ allDigits y.data then
        let year := natOfDigits y.data
        if year < 1 then .error "Year must be greater than 0."
        else .ok ⟨"+" ++ pad4 year ++ "-00-00T00:00:00Z", 0, 0, 0, 9, wikidataCalendarModel⟩
      else .error "Unsupported date format. Use YYYY or YYYY-MM or YYYY-MM-DD."
    | [y, m] =>
      if y.data.length = 4 ∧ m.data.length = 2 ∧ allDigits y.data ∧ allDigits m.data then
        let year := natOfDigits y.data
        let month := natOfDigits m.data
        if isValidDate year month 1 then
          .ok ⟨"+" ++ pad4 year ++ "-" ++ pad2 month ++ "-00T00:00:00Z", 0, 0, 0, 10,
            wikidataCalendarModel⟩
        else .error ("Invalid month date value: " ++ normalized)
      else .error "Unsupported date format. Use YYYY or YYYY-MM or YYYY-MM-DD."
    | [y, m, d] =>
      if y.data.length = 4 ∧ m.data.length = 2 ∧ d.data.length = 2 ∧
          allDigits y.data ∧ allDigits m.data ∧ allDigits d.data then
        let year := natOfDigits y.data
        let month := natOfDigits m.data
        let day := natOfDigits d.data
        if isValidDate year month day then
          .ok ⟨"+" ++ pad4 year ++ "-" ++ pad2 month ++ "-" ++ pad2 day ++ "T00:00:00Z",
            0, 0, 0, 11, wikidataCalendarModel⟩
        else .error ("Invalid date value: " ++ normalized)
      else .error "Unsupported date format. Use YYYY or YYYY-MM or YYYY-MM-DD."
    | _ => .error "Unsupported date format. Use YYYY or YYYY-MM or YYYY-MM-DD."

/-- `_wikidata_time_datavalue`. -/
def wikidataTimeDatavalue (value : String) : Except String TimeDataValue :=
  wikidataTimeDatavalueN (pyStrip value)

/-- The precision that the specification assigns to a (stripped) date input:
`9` for a valid `YYYY`, `10` for a valid `YYYY-MM`, `11` for a valid
`YYYY-MM-DD`, `none` for every other input. -/
def timeInputPrecision (n : String) : Option Nat :=
  if n = "" then none
  else
    match n.splitOn "-" with
    | [y] =>
      if y.data.length = 4 ∧ allDigits y.data then
        if natOfDigits y.data < 1 then none else some 9
      else none
    | [y, m] =>
      if y.data.length = 4 ∧ m.data.length = 2 ∧ allDigits y.data ∧ allDigits m.data then
        if isValidDate (natOfDigits y.data) (natOfDigits m.data) 1 then some 10 else none
      else none
    | [y, m, d] =>
      if y.data.length = 4 ∧ m.data.length = 2 ∧ d.data.length = 2 ∧
          allDigits y.data ∧ allDigits m.data ∧ allDigits d.data then
        if isValidDate (natOfDigits y.data) (natOfDigits m.data) (natOfDigits d.data) then
          some 11
        else none
      else none
    | _ => none

theorem timeDatavalueN_spec (n : String) :
    match wikidataTimeDatavalueN n with
    | .ok dv => timeInputPrecision n = some dv.precision ∧
        dv.calendarmodel = wikidataCalendarModel
    | .error _ => timeInputPrecision n = none := by
  by_cases hn : n = ""
  · simp [wikidataTimeDatavalueN, timeInputPrecision, hn]
  · rcases hsplit : n.splitOn "-" with _ | ⟨y, _ | ⟨m, _ | ⟨d, _ | _⟩⟩⟩ <;>
      simp only [wikidataTimeDatavalueN, timeInputPrecision, hsplit, if_neg hn] <;>
      split_ifs <;> simp_all

/-! ### Refresh scheduler pending-set protocol (`_submit_refresh`,
`_cleanup_pending_refresh`) -/

/-- Atomic events of the pending-refresh protocol for one metric kind.
`beginSubmit k` is the critical section of `_submit_refresh` (membership check
plus insert under `_IMAGE_COUNT_REFRESH_LOCK`, skipping when already pending);
`submitOk k` is `executor.submit` returning with the done-callback attached;
`submitFail k` is `executor.submit` raising `RuntimeError` followed by the
synchronous `discard` under the lock; `complete k` is the job finishing
(success or failure) and `_cleanup_pending_refresh` discarding the key under
the lock. -/
inductive RefreshEvent where
  | beginSubmit (k : String)
  | submitOk (k : String)
  | submitFail (k : String)
  | complete (k : String)
deriving DecidableEq, Repr

/-- State of one metric kind's scheduler: the pending set, the keys whose
`executor.submit` call is still in flight, and the keys with an accepted,
not-yet-finished job. -/
structure RefreshState where
  pending : List String
  inflightSubmit : List String
  outstanding : List String
deriving DecidableEq, Repr

def initialRefreshState : RefreshState := ⟨[], [], []⟩

def refreshStep (s : RefreshState) : RefreshEvent → RefreshState
  | .beginSubmit k =>
    if k ∈ s.pending then s
    else { s with pending := k :: s.pending, inflightSubmit := k :: s.inflightSubmit }
  | .submitOk k =>
    if k ∈ s.inflightSubmit then
      { s with inflightSubmit := s.inflightSubmit.erase k, outstanding := k :: s.outstanding }
    else s
  | .submitFail k =>
    if k ∈ s.inflightSubmit then
      { s with inflightSubmit := s.inflightSubmit.erase k, pending := s.pending.erase k }
    else s
  | .complete k =>
    if k ∈ s.outstanding then
      { s with outstanding := s.outstanding.erase k, pending := s.pending.erase k }
    else s

def runRefresh (evs : List RefreshEvent) : RefreshState :=
  evs.foldl refreshStep initialRefreshState

/-- Protocol invariant: the three sets are duplicate-free, a key is pending
exactly when a submission is in flight or a job is outstanding for it, and no
key is simultaneously in flight and outstanding. -/
structure RefreshInv (s : RefreshState) : Prop where
  pendingNodup : s.pending.Nodup
  inflightNodup : s.inflightSubmit.Nodup
  outstandingNodup : s.outstanding.Nodup
  pendingIff : ∀ k, k ∈ s.pending ↔ (k ∈ s.inflightSubmit ∨ k ∈ s.outstanding)
  notBoth : ∀ k, ¬ (k ∈ s.inflightSubmit ∧ k ∈ s.outstanding)

theorem refreshInv_init : RefreshInv initialRefreshState := by
  constructor <;> simp [initialRefreshState]

theorem refreshInv_step (s : RefreshState) (hs : RefreshInv s) (ev : RefreshEvent) :
    RefreshInv (refreshStep s ev) := by
  obtain ⟨hp, hi, ho, hiff, hnb⟩ := hs
  cases ev with
  | beginSubmit k =>
    by_cases hk : k ∈ s.pending
    · have hstep : refreshStep s (.beginSubmit k) = s := by
        simp [refreshStep, hk]
      rw [hstep]
      exact ⟨hp, hi, ho, hiff, hnb⟩
    · have hki : k ∉ s.inflightSubmit := fun h => hk ((hiff k).mpr (Or.inl h))
      have hko : k ∉ s.outstanding := fun h => hk ((hiff k).mpr (Or.inr h))
      have hstep : refreshStep s (.beginSubmit k) =
          ⟨k :: s.pending, k :: s.inflightSubmit, s.outstanding⟩ := by
        simp [refreshStep, hk]
      rw [hstep]
      refine ⟨List.nodup_cons.mpr ⟨hk, hp⟩, List.nodup_cons.mpr ⟨hki, hi⟩, ho, ?_, ?_⟩
      · intro m
        simp only [List.mem_cons]
        rw [hiff m]
        tauto
      · intro m hm
        rcases List.mem_cons.mp hm.1 with rfl | hmi
        · exact hko hm.2
        · exact hnb m ⟨hmi, hm.2⟩
  | submitOk k =>
    by_cases hk : k ∈ s.inflightSubmit
    · have hko : k ∉ s.outstanding := fun h => hnb k ⟨hk, h⟩
      have hstep : refreshStep s (.submitOk k) =
          ⟨s.pending, s.inflightSubmit.erase k, k :: s.outstanding⟩ := by
        simp [refreshStep, hk]
      rw [hstep]
      refine ⟨hp, hi.erase k, List.nodup_cons.mpr ⟨hko, ho⟩, ?_, ?_⟩
      · intro m
        rw [hiff m]
        simp only [List.mem_cons]
        rw [hi.mem_erase_iff]
        by_cases hmk : m = k
        · subst hmk
          simp [hk]
        · simp [hmk]
      · intro m hm
        rw [hi.mem_erase_iff] at hm
        obtain ⟨⟨hmk, hmi⟩, hmo⟩ := hm
        rcases List.mem_cons.mp hmo with rfl | hmo'
        · exact hmk rfl
        · exact hnb m ⟨hmi, hmo'⟩
    · have hstep : refreshStep s (.submitOk k) = s := by
        simp [refreshStep, hk]
      rw [hstep]
      exact ⟨hp, hi, ho, hiff, hnb⟩
  | submitFail k =>
    by_cases hk : k ∈ s.inflightSubmit
    · have hko : k ∉ s.outstanding := fun h => hnb k ⟨hk, h⟩
      have hstep : refreshStep s (.submitFail k) =
          ⟨s.pending.erase k, s.inflightSubmit.erase k, s.outstanding⟩ := by
        simp [refreshStep, hk]
      rw [hstep]
      refine ⟨hp.erase k, hi.erase k, ho, ?_, ?_⟩
      · intro m
        rw [hp.mem_erase_iff, hi.mem_erase_iff, hiff m]
        by_cases hmk : m = k
        · subst hmk
          simp [hko]
        · simp [hmk]
      · intro m hm
        rw [hi.mem_erase_iff] at hm
        exact hnb m ⟨hm.1.2, hm.2⟩
    · have hstep : refreshStep s (.submitFail k) = s := by
        simp [refreshStep, hk]
      rw [hstep]
      exact ⟨hp, hi, ho, hiff, hnb⟩
  | complete k =>
    by_cases hk : k ∈ s.outstanding
    · have hki : k ∉ s.inflightSubmit := fun h => hnb k ⟨h, hk⟩
      have hstep : refreshStep s (.complete k) =
          ⟨s.pending.erase k, s.inflightSubmit, s.outstanding.erase k⟩ := by
        simp [refreshStep, hk]
      rw [hstep]
      refine ⟨hp.erase k, hi, ho.erase k, ?_, ?_⟩
      · intro m
        rw [hp.mem_erase_iff, ho.mem_erase_iff, hiff m]
        by_cases hmk : m = k
        · subst hmk
          simp [hki]
        · simp [hmk]
      · intro m hm
        rw [ho.mem_erase_iff] at hm
        exact hnb m ⟨hm.1, hm.2.2⟩
    · have hstep : refreshStep s (.complete k) = s := by
        simp [refreshStep, hk]
      rw [hstep]
      exact ⟨hp, hi, ho, hiff, hnb⟩

theorem refreshInv_run (evs : List RefreshEvent) : RefreshInv (runRefresh evs) := by
  rw [runRefresh]
  generalize hinit : initialRefreshState = s0
  have h0 : RefreshInv s0 := hinit ▸ refreshInv_init
  clear hinit
  induction evs generalizing s0 with
  | nil => exact h0
  | cons ev evs ih => exact ih _ (refreshInv_step s0 h0 ev)

/-! ### Metric refresh jobs (`_refresh_commons_image_count`,
`_refresh_view_it_image_count`) -/

/-- Point lookup by unique key in the keyed cache table. -/
def alistLookup (key : String) : List (String × CacheEntry) → Option CacheEntry
  | [] => none
  | (k, v) :: rest => if key = k then some v else alistLookup key rest

/-- Django `Model.objects.update_or_create(key, defaults=...)` on the keyed
cache table: replace the row in place when the key exists, else insert. -/
def updateOrCreate (store : List (String × CacheEntry)) (key : String) (e : CacheEntry) :
    List (String × CacheEntry) :=
  if (alistLookup key store).isSome then
    store.map (fun p => if p.1 = key then (key, e) else p)
  else store ++ [(key, e)]

/-- `_refresh_commons_image_count`: `fetchResult` is the outcome of
`_fetch_petscan_image_count` (`Except.error` models `ExternalServiceError`);
the result is the persistent cache table after the job, which never raises. -/
def refreshCommonsImageCount (fetchResult : Except String Int) (now : Int)
    (store : List (String × CacheEntry)) (categoryName : String) :
    List (String × CacheEntry) :=
  match fetchResult with
  | .error _ => store
  | .ok c => updateOrCreate store categoryName ⟨c, some now⟩

/-- `_refresh_view_it_image_count`, identically shaped over the view-it table. -/
def refreshViewItImageCount (fetchResult : Except String Int) (now : Int)
    (store : List (String × CacheEntry)) (wikidataQid : String) :
    List (String × CacheEntry) :=
  match fetchResult with
  | .error _ => store
  | .ok c => updateOrCreate store wikidataQid ⟨c, some now⟩

theorem alistLookup_replace_self (key : String) (e : CacheEntry)
    (store : List (String × CacheEntry)) (h : (alistLookup key store).isSome = true) :
    alistLookup key (store.map (fun p => if p.1 = key then (key, e) else p)) = some e := by
  induction store with
  | nil => simp [alistLookup] at h
  | cons p rest ih =>
    obtain ⟨pk, pv⟩ := p
    by_cases hpk : pk = key
    · subst hpk
      rw [List.map_cons]
      have hhd : (if (pk, pv).1 = pk then (pk, e) else (pk, pv)) = (pk, e) := if_pos rfl
      rw [hhd, alistLookup, if_pos rfl]
    · have hne : ¬ key = pk := fun hh => hpk hh.symm
      rw [alistLookup, if_neg hne] at h
      rw [List.map_cons]
      have hhd : (if (pk, pv).1 = key then (key, e) else (pk, pv)) = (pk, pv) := if_neg hpk
      rw [hhd, alistLookup, if_neg hne]
      exact ih h

theorem alistLookup_replace_other (key k : String) (e : CacheEntry) (h : ¬ k = key)
    (store : List (String × CacheEntry)) :
    alistLookup k (store.map (fun p => if p.1 = key then (key, e) else p)) =
      alistLookup k store := by
  induction store with
  | nil => rfl
  | cons p rest ih =>
    obtain ⟨pk, pv⟩ := p
    rw [List.map_cons]
    by_cases hpk : pk = key
    · subst hpk
      have hhd : (if (pk, pv).1 = pk then (pk, e) else (pk, pv)) = (pk, e) := if_pos rfl
      rw [hhd, alistLookup, if_neg h, alistLookup, if_neg h]
      exact ih
    · have hhd : (if (pk, pv).1 = key then (key, e) else (pk, pv)) = (pk, pv) := if_neg hpk
      rw [hhd, alistLookup, alistLookup]
      by_cases hkpk : k = pk
      · rw [if_pos hkpk, if_pos hkpk]
      · rw [if_neg hkpk, if_neg hkpk]
        exact ih

theorem alistLookup_append_self (key : String) (e : CacheEntry)
    (store : List (String × CacheEntry)) (h : alistLookup key store = none) :
    alistLookup key (store ++ [(key, e)]) = some e := by
  induction store with
  | nil => simp [alistLookup]
  | cons p rest ih =>
    obtain ⟨pk, pv⟩ := p
    rw [alistLookup] at h
    rw [List.cons_append, alistLookup]
    by_cases hkpk : key = pk
    · rw [if_pos hkpk] at h
      exact absurd h (by simp)
    · rw [if_neg hkpk] at h
      rw [if_neg hkpk]
      exact ih h

theorem alistLookup_append_other (key k : String) (e : CacheEntry) (h : ¬ k = key)
    (store : List (String × CacheEntry)) :
    alistLookup k (store ++ [(key, e)]) = alistLookup k store := by
  induction store with
  | nil => simp [alistLookup, h]
  | cons p rest ih =>
    obtain ⟨pk, pv⟩ := p
    rw [List.cons_append, alistLookup, alistLookup]
    by_cases hkpk : k = pk
    · rw [if_pos hkpk, if_pos hkpk]
    · rw [if_neg hkpk, if_neg hkpk]
      exact ih

theorem alistLookup_updateOrCreate_self (store : List (String × CacheEntry)) (key : String)
    (e : CacheEntry) : alistLookup key (updateOrCreate store key e) = some e := by
  unfold updateOrCreate
  split
  case isTrue h => exact alistLookup_replace_self key e store h
  case isFalse h =>
    apply alistLookup_append_self
    cases hl : alistLookup key store with
    | none => rfl
    | some v => rw [hl] at h; exact absurd rfl h

theorem alistLookup_updateOrCreate_other (store : List (String × CacheEntry)) (key k : String)
    (e : CacheEntry) (h : ¬ k = key) :
    alistLookup k (updateOrCreate store key e) = alistLookup k store := by
  unfold updateOrCreate
  split
  · exact alistLookup_replace_other key k e h store
  · exact alistLookup_append_other key k e h store

/-- `fetch_locations` (the SPARQL endpoint abstracted as `oracle`). -/
def fetchLocations (oracle : String → Except String (List Binding)) (lang : Option String) :
    Except String (List PyDict) :=
  match runQueryLoop oracle (languageFallbacks lang false) [] none false with
  | (bs, lastError, hadSuccess) =>
    if ¬ bs.isEmpty then .ok (mergeBindings bs)
    else
      match lastError, hadSuccess with
      | some e, false => .error e
      | _, _ => .ok []

/-- `fetch_location_detail` (its per-language oracle runs the detail query). -/
def fetchLocationDetail (oracle : String → Except String (List Binding))
    (lang : Option String) : Except String (Option PyDict) :=
  match runQueryLoop oracle (languageFallbacks lang false) [] none false with
  | (bs, lastError, hadSuccess) =>
    if ¬ bs.isEmpty then
      match groupByUri bs with
      | [] => .ok none
      | g :: _ => .ok (some (applyArchitectValues g.2.1 g.2.2))
    else
      match lastError, hadSuccess with
      | some e, false => .error e
      | _, _ => .ok none

/-- The per-row child item of `fetch_location_children` lines 1203–1222: the
child URI together with the dict built for it (`id`, `uri`, `name`, `source`,
and `commons_category` only when the normalized category is non-empty; the
name falls back to the last URI path segment with underscores replaced). Rows
with no child URI yield `none`. -/
def childItemOf (b : Binding) : Option (String × PyDict) :=
  let childUri := bindingValue b ["subitem", "item", "uri"] ""
  if childUri = "" then none
  else
    let childLabel0 := bindingValue b ["subitemLabel", "itemLabel", "label"] ""
    let childLabel :=
      if childLabel0 = "" then
        (⟨(lastPathSegment childUri).data.map (fun c => if c = '_' then ' ' else c)⟩ : String)
      else childLabel0
    let childCommonsCategory :=
      normalizeCommonsCategory (bindingValue b ["commonsCategory", "commons_category"] "")
    let childItem : PyDict :=
      [("id", .vStr (encodeLocationId childUri)), ("uri", .vStr childUri),
        ("name", .vStr childLabel), ("source", .vStr "sparql")] ++
      (if ¬ childCommonsCategory = "" then
        [("commons_category", .vStr childCommonsCategory)] else [])
    some (childUri, childItem)

/-- The keep-first merge of `fetch_location_children` lines 1200–1223
(`children_by_uri` insertion order, duplicates by child URI skipped). -/
def mergeChildren (bs : List Binding) : List PyDict :=
  (bs.foldl
    (fun acc b =>
      match childItemOf b with
      | none => acc
      | some ci => if acc.any (fun p => p.1 = ci.1) then acc else acc ++ [ci])
    []).map Prod.snd

/-- `fetch_location_children` (its per-language oracle runs `_children_query`
for the requested URI and limit). -/
def fetchLocationChildren (oracle : String → Except String (List Binding))
    (lang : Option String) : Except String (List PyDict) :=
  match runQueryLoop oracle (languageFallbacks lang false) [] none false with
  | (bs, lastError, hadSuccess) =>
    if ¬ bs.isEmpty then .ok (mergeChildren bs)
    else
      match lastError, hadSuccess with
      | some e, false => .error e
      | _, _ => .ok []

theorem languageFallbacks_some (l : String) (hl : ¬ l = "") (includeMul : Bool) :
    languageFallbacks (some l) includeMul =
      firstOccurrences
        (((if normalizeLangTag l ∈ ["en", "sv", "fi"] then [normalizeLangTag l] else []) ++
          (if baseLangOf (normalizeLangTag l) ∈ ["en", "sv", "fi"]
            then [baseLangOf (normalizeLangTag l)] else [])) ++
          ["en"] ++ ["en"] ++ (if includeMul then ["mul"] else [])) := by
  have hallowed : settingsLanguages.map pyLower = ["en", "sv", "fi"] := by decide
  have hdefault : pyLower settingsLanguageCode = "en" := by decide
  have hen : (if ("en" : String) ∈ ["en", "sv", "fi"] then ["en"] else []) = ["en"] := by
    decide
  simp only [languageFallbacks, hallowed, hdefault, if_neg hl, hen]

/-! ### Image-count enrichment (`_commons_counts_for_categories`,
`_view_it_counts_for_qids`, `enrich_locations_with_image_counts`) -/

/-- An element of the `locations` list: a dict, or any non-dict value
(returned unchanged by the enrichment). -/
inductive PyObj where
  | dict (d : PyDict)
  | nonDict (v : PyVal)
deriving DecidableEq, Repr

/-- Ordered insertion keeping the list sorted and duplicate-free; folding it
models Python's `sorted(set)`. -/
def insertSorted (s : String) : List String → List String
  | [] => [s]
  | x :: rest =>
    if s = x then x :: rest
    else if s < x then s :: x :: rest
    else x :: insertSorted s rest

def sortedDedup (l : List String) : List String :=
  l.foldl (fun acc s => insertSorted s acc) []

def countsGet : List (String × Int) → String → Option Int
  | [], _ => none
  | (k', n) :: rest, k => if k = k' then some n else countsGet rest k

/-- `_commons_counts_for_categories` over an explicit cache table: returns the
found counts and the stale-or-missing keys. -/
def commonsCountsForCategories (store : List (String × CacheEntry)) (now ttl : Int)
    (categories : List String) : List (String × Int) × List String :=
  let normalizedCategories :=
    sortedDedup ((categories.map normalizeCommonsCategory).filter (fun c => ¬ c = ""))
  if normalizedCategories.isEmpty then ([], [])
  else
    let cutoff := imageCountCacheCutoff ttl now
    normalizedCategories.foldl
      (fun (acc : List (String × Int) × List String) category =>
        match alistLookup category store with
        | some entry =>
          if isCacheEntryFresh entry.fetchedAt cutoff then
            (acc.1 ++ [(category, entry.imageCount)], acc.2)
          else (acc.1 ++ [(category, entry.imageCount)], acc.2 ++ [category])
        | none => (acc.1, acc.2 ++ [category]))
      ([], [])

/-- `_view_it_counts_for_qids`, identically shaped with QID normalisation. -/
def viewItCountsForQids (store : List (String × CacheEntry)) (now ttl : Int)
    (qids : List String) : List (String × Int) × List String :=
  let normalizedQids := sortedDedup ((qids.map extractWikidataQid).filter (fun q => ¬ q = ""))
  if normalizedQids.isEmpty then ([], [])
  else
    let cutoff := imageCountCacheCutoff ttl now
    normalizedQids.foldl
      (fun (acc : List (String × Int) × List String) qid =>
        match alistLookup qid store with
        | some entry =>
          if isCacheEntryFresh entry.fetchedAt cutoff then
            (acc.1 ++ [(qid, entry.imageCount)], acc.2)
          else (acc.1 ++ [(qid, entry.imageCount)], acc.2 ++ [qid])
        | none => (acc.1, acc.2 ++ [qid]))
      ([], [])

/-- The normalized Commons category of one list element
(`category_by_position`). -/
def enrichCategoryOf : PyObj → String
  | .dict d => normalizeCommonsCategory (dictStrGet d "commons_category")
  | .nonDict _ => ""

/-- The normalized Wikidata QID of one list element (`qid_by_position`):
`wikidata_item` first, else extracted from `uri`. -/
def enrichQidOf : PyObj → String
  | .dict d =>
    let q := extractWikidataQid (dictStrGet d "wikidata_item")
    if q = "" then extractWikidataQid (dictStrGet d "uri") else q
  | .nonDict _ => ""

/-- The second pass of `enrich_locations_with_image_counts` on one element. -/
def enrichOne (commonsCounts viewItCounts : List (String × Int)) (loc : PyObj) : PyObj :=
  match loc with
  | .nonDict v => .nonDict v
  | .dict d =>
    let category := enrichCategoryOf (.dict d)
    let d1 :=
      if ¬ category = "" then
        dictSet
          (dictSet (dictSet d "commons_category" (.vStr category))
            "commons_category_url" (.vStr (commonsCategoryUrl category)))
          "commons_image_count_petscan"
          (match countsGet commonsCounts category with
           | some n => .vInt n
           | none => .vNone)
      else d
    let qid := enrichQidOf (.dict d)
    if ¬ qid = "" then
      .dict (dictSet
        (dictSet (dictSet d1 "view_it_qid" (.vStr qid)) "view_it_url"
          (.vStr (viewItUrl qid)))
        "view_it_image_count"
        (match countsGet viewItCounts qid with
         | some n => .vInt n
         | none => .vNone))
    else .dict d1

/-- `enrich_locations_with_image_counts` over explicit cache tables; returns
the enriched list together with the stale key sets handed to
`_queue_image_count_refresh`. -/
def enrichLocationsWithImageCounts (commonsStore viewItStore : List (String × CacheEntry))
    (now ttl : Int) (locations : List PyObj) :
    List PyObj × List String × List String :=
  if locations.isEmpty then (locations, [], [])
  else
    let categories := (locations.map enrichCategoryOf).filter (fun c => ¬ c = "")
    let qids := (locations.map enrichQidOf).filter (fun q => ¬ q = "")
    let commonsRes := commonsCountsForCategories commonsStore now ttl categories
    let viewItRes := viewItCountsForQids viewItStore now ttl qids
    (locations.map (enrichOne commonsRes.1 viewItRes.1), commonsRes.2, viewItRes.2)

/-- The keys the enrichment may write. -/
def enrichKeys : List String :=
  ["commons_category", "commons_category_url", "commons_image_count_petscan",
   "view_it_qid", "view_it_url", "view_it_image_count"]

/-! ### Wikidata write pipeline (`ensure_wikidata_collection_membership` and
its helpers) -/

/-- A snak's `datavalue.value`: a string, an entity reference (the read API
supplies `id`, our writes supply `numeric-id`), a time value, monolingual
text, or anything else. -/
inductive SnakValue where
  | sStr (s : String)
  | sEntity (id : Option String) (numericId : Option Int)
  | sTime (t : TimeDataValue)
  | sMono (text lang : String)
  | sOther
deriving DecidableEq, Repr

def strUpper (s : String) : String := ⟨s.data.map Char.toUpper⟩

/-- `_entity_id_from_claim_value`: `id` (uppercased) first, else
`Q{numeric-id}`. -/
def entityIdFromClaimValue : SnakValue → String
  | .sEntity oid onum =>
    match oid with
    | some id =>
      if ¬ id = "" then strUpper id
      else
        match onum with
        | some n => "Q" ++ toString n
        | none => ""
    | none =>
      match onum with
      | some n => "Q" ++ toString n
      | none => ""
  | _ => ""

def snakValueTruthy : SnakValue → Bool
  | .sStr s => ¬ s = ""
  | _ => true

/-- `str(...)` of a snak value (non-string reprs approximated; the embedded
write path only compares string snaks this way). -/
def snakValueStr : SnakValue → String
  | .sStr s => s
  | .sEntity _ _ => "{entity}"
  | .sTime _ => "{time}"
  | .sMono _ _ => "{monolingualtext}"
  | .sOther => "{object}"

/-- A reference's `snaks` dict: property id → snak datavalues. -/
abbrev RefSnaks := List (String × List SnakValue)

def snaksGet : RefSnaks → String → Option (List SnakValue)
  | [], _ => none
  | (k', v) :: rest, k => if k = k' then some v else snaksGet rest k

/-- `_reference_has_string_snak`. -/
def referenceHasStringSnak (snaks : RefSnaks) (propertyId expectedValue : String) : Bool :=
  let normalizedExpected := pyStrip expectedValue
  if normalizedExpected = "" then true
  else
    match snaksGet snaks propertyId with
    | none => false
    | some propertySnaks =>
      propertySnaks.any (fun v =>
        pyStrip (snakValueStr (if snakValueTruthy v then v else .sStr "")) = normalizedExpected)

/-- `_reference_has_entity_snak`. -/
def referenceHasEntitySnak (snaks : RefSnaks) (propertyId expectedQid : String) : Bool :=
  let normalizedExpectedQid := extractWikidataQid expectedQid
  if normalizedExpectedQid = "" then true
  else
    match snaksGet snaks propertyId with
    | none => false
    | some propertySnaks =>
      propertySnaks.any (fun v => entityIdFromClaimValue v = normalizedExpectedQid)

/-- One claim of the entity, as read through `wbgetentities` and mutated by
the write actions: statement id, mainsnak datavalue, attached references (in
attachment order) and qualifiers. -/
structure ClaimRec where
  id : String
  mainsnakValue : Option SnakValue
  references : List RefSnaks
  qualifiers : List (String × SnakValue)
deriving DecidableEq, Repr

/-- The entity's `claims` dict: property id → claim list. -/
abbrev EntityClaims := List (String × List ClaimRec)

def claimsGet : EntityClaims → String → Option (List ClaimRec)
  | [], _ => none
  | (k', v) :: rest, k => if k = k' then some v else claimsGet rest k

def claimMatchesTarget (normalizedTarget : String) (entry : ClaimRec) : Bool :=
  match entry.mainsnakValue with
  | none => false
  | some v =>
    let entityId := entityIdFromClaimValue v
    decide (¬ entityId = "") && decide (entityId = normalizedTarget)

/-- `_entity_item_claims`. -/
def entityItemClaims (claims : EntityClaims) (propertyId targetQid : String) : List ClaimRec :=
  let normalizedTarget := extractWikidataQid targetQid
  if normalizedTarget = "" then []
  else
    match claimsGet claims propertyId with
    | none => []
    | some entries => entries.filter (claimMatchesTarget normalizedTarget)

/-- `_claim_has_matching_source_reference`. -/
def claimHasMatchingSourceReference (claim : ClaimRec) (sourceUrl sourcePublishedIn
    sourceLanguageOfWork : String) : Bool :=
  let normalizedUrl := pyStrip sourceUrl
  if normalizedUrl = "" then false
  else
    claim.references.any (fun snaks =>
      referenceHasStringSnak snaks "P854" normalizedUrl &&
        referenceHasEntitySnak snaks "P1433" sourcePublishedIn &&
        referenceHasEntitySnak snaks "P407" sourceLanguageOfWork)

/-- `_wikidata_numeric_qid` composed into `_wikidata_entity_datavalue`: our
writes store `{'entity-type': 'item', 'numeric-id': n}`. -/
def wikidataEntityDatavalue (qid : String) : Except String SnakValue :=
  let normalizedQid := extractWikidataQid qid
  if normalizedQid = "" then .error ("Invalid Wikidata item: " ++ qid)
  else .ok (.sEntity none (some (natOfDigits (normalizedQid.data.drop 1) : Int)))

def isLangCodeShape (s : String) : Bool :=
  decide (2 ≤ s.data.length) && decide (s.data.length ≤ 12) &&
    s.data.all (fun c => decide ('a' ≤ c) && decide (c ≤ 'z'))

/-- `_wikidata_language_code`. -/
def wikidataLanguageCode (value fallback : String) : String :=
  let normalizedFallback := pyLower (pyStrip fallback)
  let normalizedFallback := if isLangCodeShape normalizedFallback then normalizedFallback
    else "en"
  let normalized := pyLower (pyStrip value)
  if isLangCodeShape normalized then normalized else normalizedFallback

/-- An optional one-key snak group, as conditionally inserted by
`_wikidata_source_snaks`. -/
def optSnakBlock (c : Prop) [Decidable c] (k : String) (v : List SnakValue) : RefSnaks :=
  if c then [(k, v)] else []

/-- `_wikidata_source_snaks` (`today` is `_wikidata_today_datavalue()`); the
publication date can raise `WikidataWriteError` through
`_wikidata_time_datavalue`. -/
def wikidataSourceSnaks (today : TimeDataValue) (sourceUrl sourceTitle sourceTitleLanguage
    sourceAuthor sourcePublicationDate sourcePublishedIn sourceLanguageOfWork : String) :
    Except String RefSnaks :=
  let normalizedUrl := pyStrip sourceUrl
  if normalizedUrl = "" then .ok []
  else
    let titleBlock : RefSnaks :=
      optSnakBlock (¬ pyStrip sourceTitle = "") "P1476"
        [.sMono (pyStrip sourceTitle) (wikidataLanguageCode sourceTitleLanguage "en")]
    let authorBlock : RefSnaks :=
      optSnakBlock (¬ pyStrip sourceAuthor = "") "P2093" [.sStr (pyStrip sourceAuthor)]
    let publishedInQid := extractWikidataQid (pyStrip sourcePublishedIn)
    let publishedInBlock : RefSnaks :=
      optSnakBlock (¬ publishedInQid = "") "P1433"
        [.sEntity none (some (natOfDigits (publishedInQid.data.drop 1) : Int))]
    let languageOfWorkQid := extractWikidataQid (pyStrip sourceLanguageOfWork)
    let languageOfWorkBlock : RefSnaks :=
      optSnakBlock (¬ languageOfWorkQid = "") "P407"
        [.sEntity none (some (natOfDigits (languageOfWorkQid.data.drop 1) : Int))]
    if ¬ pyStrip sourcePublicationDate = "" then
      match wikidataTimeDatavalue (pyStrip sourcePublicationDate) with
      | .error e => .error e
      | .ok dv =>
        .ok ([("P854", [.sStr normalizedUrl]), ("P813", [.sTime today])] ++ titleBlock ++
          authorBlock ++ [("P577", [.sTime dv])] ++ publishedInBlock ++ languageOfWorkBlock)
    else
      .ok ([("P854", [.sStr normalizedUrl]), ("P813", [.sTime today])] ++ titleBlock ++
        authorBlock ++ publishedInBlock ++ languageOfWorkBlock)

/-- `wbcreateclaim`: the API appends a fresh claim under its property. -/
def addClaim (claims : EntityClaims) (propertyId : String) (c : ClaimRec) : EntityClaims :=
  if (claimsGet claims propertyId).isSome then
    claims.map (fun p => if p.1 = propertyId then (p.1, p.2 ++ [c]) else p)
  else claims ++ [(propertyId, [c])]

def refUpd (claimId : String) (snaks : RefSnaks) (c : ClaimRec) : ClaimRec :=
  if c.id = claimId then { c with references := c.references ++ [snaks] } else c

def qualUpd (claimId propertyId : String) (v : SnakValue) (c : ClaimRec) : ClaimRec :=
  if c.id = claimId then { c with qualifiers := c.qualifiers ++ [(propertyId, v)] } else c

def mapClaims (u : ClaimRec → ClaimRec) (claims : EntityClaims) : EntityClaims :=
  claims.map (fun p => (p.1, p.2.map u))

/-- `wbsetreference`: append a reference to the claim with the given id. -/
def setReference (claims : EntityClaims) (claimId : String) (snaks : RefSnaks) :
    EntityClaims :=
  mapClaims (refUpd claimId snaks) claims

/-- `wbsetqualifier`. -/
def setQualifier (claims : EntityClaims) (claimId propertyId : String) (v : SnakValue) :
    EntityClaims :=
  mapClaims (qualUpd claimId propertyId v) claims

/-- Whether `_create_wikidata_claim` skips a qualifier (None, or a blank
string value). -/
def qualifierSkipped : Option SnakValue → Bool
  | none => true
  | some (.sStr s) => pyStrip s = ""
  | some _ => false

def qualifiersFold (claimId : String) (qualifiers : List (String × Option SnakValue))
    (claims : EntityClaims) : EntityClaims :=
  qualifiers.foldl
    (fun s q =>
      if qualifierSkipped q.2 then s
      else setQualifier s claimId q.1 (q.2.getD .sOther))
    claims

/-- `_create_wikidata_claim`: create the claim (the API's fresh statement id
is modelled by `freshId`), attach the source reference when source snaks are
non-empty, then set the qualifiers; returns the new state, the claim id and
the number of reference attachments (0 or 1). -/
def createWikidataClaim (freshId : String) (today : TimeDataValue) (st : EntityClaims)
    (propertyId : String) (datavalue : SnakValue)
    (sourceUrl sourceTitle sourceTitleLanguage sourceAuthor sourcePublicationDate
      sourcePublishedIn sourceLanguageOfWork : String)
    (qualifiers : List (String × Option SnakValue)) :
    Except String (EntityClaims × String × Nat) :=
  let claimId := pyStrip freshId
  if claimId = "" then
    .error ("Wikidata API did not return claim id for " ++ propertyId ++ ".")
  else
    match wikidataSourceSnaks today sourceUrl sourceTitle sourceTitleLanguage sourceAuthor
        sourcePublicationDate sourcePublishedIn sourceLanguageOfWork with
    | .error e => .error e
    | .ok snaks =>
      let st1 := addClaim st propertyId ⟨claimId, some datavalue, [], []⟩
      let st2 := if snaks.isEmpty then st1 else setReference st1 claimId snaks
      .ok (qualifiersFold claimId qualifiers st2, claimId, if snaks.isEmpty then 0 else 1)

/-- The reference-attachment loop of the already-listed branch of
`ensure_wikidata_collection_membership`. -/
def attachRefsLoop (today : TimeDataValue) (st : EntityClaims) (claims : List ClaimRec)
    (sourceUrl sourceTitle sourceTitleLanguage sourceAuthor sourcePublicationDate
      sourcePublishedIn sourceLanguageOfWork : String) (n : Nat) :
    Except String (EntityClaims × Nat) :=
  match claims with
  | [] => .ok (st, n)
  | claim :: rest =>
    let claimId := pyStrip claim.id
    if claimId = "" then
      attachRefsLoop today st rest sourceUrl sourceTitle sourceTitleLanguage sourceAuthor
        sourcePublicationDate sourcePublishedIn sourceLanguageOfWork n
    else if claimHasMatchingSourceReference claim sourceUrl sourcePublishedIn
        sourceLanguageOfWork then
      attachRefsLoop today st rest sourceUrl sourceTitle sourceTitleLanguage sourceAuthor
        sourcePublicationDate sourcePublishedIn sourceLanguageOfWork n
    else
      match wikidataSourceSnaks today sourceUrl sourceTitle sourceTitleLanguage sourceAuthor
          sourcePublicationDate sourcePublishedIn sourceLanguageOfWork with
      | .error e => .error e
      | .ok snaks =>
        if snaks.isEmpty then
          attachRefsLoop today st rest sourceUrl sourceTitle sourceTitleLanguage sourceAuthor
            sourcePublicationDate sourcePublishedIn sourceLanguageOfWork n
        else
          attachRefsLoop today (setReference st claimId snaks) rest sourceUrl sourceTitle
            sourceTitleLanguage sourceAuthor sourcePublicationDate sourcePublishedIn
            sourceLanguageOfWork (n + 1)

/-- `ensure_wikidata_collection_membership`: the entity's current claims `st`
stand for the `wbgetentities` read (the OAuth session and reads are assumed to
succeed); returns the entity state after the write calls together with the
number of `wbcreateclaim` calls, the number of `wbsetreference` calls and the
`already_listed` flag. -/
def ensureWikidataCollectionMembership (freshId : String) (today : TimeDataValue)
    (st : EntityClaims) (entityId : String) (collectionQid : Option String)
    (settingsCollectionQid : String)
    (sourceUrl sourceTitle sourceTitleLanguage sourceAuthor sourcePublicationDate
      sourcePublishedIn sourceLanguageOfWork reason : String) :
    Except String (EntityClaims × Nat × Nat × Bool) :=
  let normalizedEntityQid := extractWikidataQid entityId
  if normalizedEntityQid = "" then .error "A valid Wikidata item id is required."
  else
    let rawCollectionQid :=
      match collectionQid with
      | some c => if ¬ c = "" then c else settingsCollectionQid
      | none => settingsCollectionQid
    let normalizedCollectionQid := extractWikidataQid rawCollectionQid
    if normalizedCollectionQid = "" then
      .error "A valid collection Wikidata item id is required."
    else
      let normalizedSourceUrl := pyStrip sourceUrl
      let normalizedSourceTitle := pyStrip sourceTitle
      let normalizedSourceTitleLanguage := pyStrip sourceTitleLanguage
      let normalizedSourceAuthor := pyStrip sourceAuthor
      let normalizedSourcePublicationDate := pyStrip sourcePublicationDate
      let normalizedSourcePublishedInQid := extractWikidataQid (pyStrip sourcePublishedIn)
      let normalizedSourceLanguageOfWorkQid :=
        extractWikidataQid (pyStrip sourceLanguageOfWork)
      let normalizedReason := pyStrip reason
      let matchingCollectionClaims := entityItemClaims st "P5008" normalizedCollectionQid
      let alreadyListed := ¬ matchingCollectionClaims.isEmpty
      if alreadyListed then
        if ¬ normalizedSourceUrl = "" then
          match attachRefsLoop today st matchingCollectionClaims normalizedSourceUrl
              normalizedSourceTitle normalizedSourceTitleLanguage normalizedSourceAuthor
              normalizedSourcePublicationDate normalizedSourcePublishedInQid
              normalizedSourceLanguageOfWorkQid 0 with
          | .error e => .error e
          | .ok (st', n) => .ok (st', 0, n, true)
        else .ok (st, 0, 0, true)
      else
        match wikidataEntityDatavalue normalizedCollectionQid with
        | .error e => .error e
        | .ok datavalue =>
          match createWikidataClaim freshId today st "P5008" datavalue normalizedSourceUrl
              normalizedSourceTitle normalizedSourceTitleLanguage normalizedSourceAuthor
              normalizedSourcePublicationDate normalizedSourcePublishedInQid
              normalizedSourceLanguageOfWorkQid
              [("P958", some (.sStr normalizedReason))] with
          | .error e => .error e
          | .ok (st', _, refs) => .ok (st', 1, refs, false)

/-! ### Lemmas on dicts and the grouping fold -/

theorem dictGet_map_update_ne (d : PyDict) (k k' : String) (v : PyVal) (h : ¬ k' = k) :
    dictGet (d.map (fun p => if p.1 = k then (k, v) else p)) k' = dictGet d k' := by
  induction d with
  | nil => rfl
  | cons p rest ih =>
    obtain ⟨pk, pv⟩ := p
    rw [List.map_cons]
    by_cases hpk : pk = k
    · subst hpk
      have hhd : (if (pk, pv).1 = pk then (pk, v) else (pk, pv)) = (pk, v) := if_pos rfl
      rw [hhd]
      simp only [dictGet, if_neg h]
      exact ih
    · have hhd : (if (pk, pv).1 = k then (k, v) else (pk, pv)) = (pk, pv) := if_neg hpk
      rw [hhd]
      simp only [dictGet]
      by_cases hkpk : k' = pk
      · rw [if_pos hkpk, if_pos hkpk]
      · rw [if_neg hkpk, if_neg hkpk]
        exact ih

theorem dictGet_append_ne (d : PyDict) (k k' : String) (v : PyVal) (h : ¬ k' = k) :
    dictGet (d ++ [(k, v)]) k' = dictGet d k' := by
  induction d with
  | nil =>
    rw [List.nil_append]
    simp only [dictGet, if_neg h]
  | cons p rest ih =>
    obtain ⟨pk, pv⟩ := p
    rw [List.cons_append]
    simp only [dictGet]
    by_cases hkpk : k' = pk
    · rw [if_pos hkpk, if_pos hkpk]
    · rw [if_neg hkpk, if_neg hkpk]
      exact ih

theorem dictGet_dictSet_ne (d : PyDict) (k k' : String) (v : PyVal) (h : ¬ k' = k) :
    dictGet (dictSet d k v) k' = dictGet d k' := by
  unfold dictSet
  split
  · exact dictGet_map_update_ne d k k' v h
  · exact dictGet_append_ne d k k' v h

theorem groupStep_error (groups : List (String × PyDict × List Binding)) (b : Binding)
    (e : String) (hfmt : formatBinding b = .error e) : groupStep groups b = groups := by
  unfold groupStep
  rw [hfmt]

theorem groupStep_ok (groups : List (String × PyDict × List Binding)) (b : Binding)
    (loc : Location) (hfmt : formatBinding b = .ok loc) :
    groupStep groups b =
      (if itemUriKey (locationToDict loc) = "" then groups
      else if groups.any (fun g => g.1 = itemUriKey (locationToDict loc)) then
        groups.map (fun g =>
          if g.1 = itemUriKey (locationToDict loc) then (g.1, g.2.1, g.2.2 ++ [b]) else g)
      else groups ++ [(itemUriKey (locationToDict loc), locationToDict loc, [b])]) := by
  unfold groupStep
  rw [hfmt]

theorem rowUriKey_error (b : Binding) (e : String) (hfmt : formatBinding b = .error e) :
    rowUriKey b = none := by
  unfold rowUriKey
  rw [hfmt]

theorem rowUriKey_ok (b : Binding) (loc : Location) (hfmt : formatBinding b = .ok loc) :
    rowUriKey b =
      (if itemUriKey (locationToDict loc) = "" then none
      else some (itemUriKey (locationToDict loc))) := by
  unfold rowUriKey
  rw [hfmt]

theorem itemUriKey_applyArchitectValues (item : PyDict) (bs : List Binding) :
    itemUriKey (applyArchitectValues item bs) = itemUriKey item := by
  unfold applyArchitectValues
  cases collectLinkedEntities bs architectValueKeys architectLabelKeys architectWikiKeys with
  | nil => rfl
  | cons firstArchitect rest =>
    simp only []
    unfold itemUriKey dictStrGet
    rw [dictGet_dictSet_ne _ _ _ _ (by decide), dictGet_dictSet_ne _ _ _ _ (by decide),
      dictGet_dictSet_ne _ _ _ _ (by decide), dictGet_dictSet_ne _ _ _ _ (by decide)]

theorem map_fst_groupStep_update (groups : List (String × PyDict × List Binding)) (uri : String)
    (b : Binding) :
    (groups.map (fun g => if g.1 = uri then (g.1, g.2.1, g.2.2 ++ [b]) else g)).map (·.1) =
      groups.map (·.1) := by
  rw [List.map_map]
  apply List.map_congr_left
  intro g _
  by_cases hg : g.1 = uri
  · simp [hg]
  · simp [hg]

theorem any_key_iff_mem_map (groups : List (String × PyDict × List Binding)) (uri : String) :
    groups.any (fun g => g.1 = uri) = true ↔ uri ∈ groups.map (·.1) := by
  rw [List.any_eq_true]
  constructor
  · rintro ⟨g, hg, hguri⟩
    rw [List.mem_map]
    exact ⟨g, hg, by simpa using hguri⟩
  · intro h
    rw [List.mem_map] at h
    obtain ⟨g, hg, hguri⟩ := h
    exact ⟨g, hg, by simpa using hguri⟩

theorem groupKeys_fold (bs : List Binding) :
    ∀ groups : List (String × PyDict × List Binding),
      ((bs.foldl groupStep groups).map (·.1)) =
        (bs.filterMap rowUriKey).foldl
          (fun acc k => if k ∈ acc then acc else acc ++ [k]) (groups.map (·.1)) := by
  induction bs with
  | nil => intro groups; rfl
  | cons b bs ih =>
    intro groups
    rw [List.foldl_cons, List.filterMap_cons]
    cases hfmt : formatBinding b with
    | error e =>
      rw [groupStep_error groups b e hfmt, rowUriKey_error b e hfmt]
      exact ih groups
    | ok loc =>
      rw [groupStep_ok groups b loc hfmt, rowUriKey_ok b loc hfmt]
      by_cases hu : itemUriKey (locationToDict loc) = ""
      · rw [if_pos hu, if_pos hu]
        exact ih groups
      · rw [if_neg hu, if_neg hu]
        rw [List.foldl_cons]
        by_cases hany : groups.any (fun g => g.1 = itemUriKey (locationToDict loc)) = true
        · rw [if_pos hany, ih, map_fst_groupStep_update,
            if_pos ((any_key_iff_mem_map _ _).mp hany)]
        · rw [if_neg hany, ih]
          have hnot : itemUriKey (locationToDict loc) ∉ groups.map (·.1) := by
            intro hmem
            exact hany ((any_key_iff_mem_map _ _).mpr hmem)
          rw [if_neg hnot, List.map_append]
          rfl

theorem groupItem_inv (bs : List Binding) :
    ∀ groups : List (String × PyDict × List Binding),
      (∀ g ∈ groups, itemUriKey g.2.1 = g.1) →
      ∀ g ∈ bs.foldl groupStep groups, itemUriKey g.2.1 = g.1 := by
  induction bs with
  | nil => exact fun groups h => h
  | cons b bs ih =>
    intro groups hinv
    rw [List.foldl_cons]
    apply ih
    cases hfmt : formatBinding b with
    | error e =>
      rw [groupStep_error groups b e hfmt]
      exact hinv
    | ok loc =>
      rw [groupStep_ok groups b loc hfmt]
      by_cases hu : itemUriKey (locationToDict loc) = ""
      · rw [if_pos hu]
        exact hinv
      · rw [if_neg hu]
        by_cases hany : groups.any (fun g => g.1 = itemUriKey (locationToDict loc)) = true
        · rw [if_pos hany]
          intro g hg
          rw [List.mem_map] at hg
          obtain ⟨g0, hg0, hup⟩ := hg
          by_cases hk : g0.1 = itemUriKey (locationToDict loc)
          · rw [if_pos hk] at hup
            subst hup
            exact hinv g0 hg0
          · rw [if_neg hk] at hup
            subst hup
            exact hinv g0 hg0
        · rw [if_neg hany]
          intro g hg
          rcases List.mem_append.mp hg with hg' | hg'
          · exact hinv g hg'
          · rw [List.mem_singleton] at hg'
            subst hg'
            rfl

/-! ### Lemmas on the multi-value merge fold -/

/-- The stripped `{value, label, wikipedia_url}` triple a row contributes. -/
def rowTriple (vks lks wks : List String) (b : Binding) : LinkedEntity :=
  ⟨pyStrip (bindingValue b vks ""), pyStrip (bindingValue b lks ""),
    pyStrip (bindingValue b wks "")⟩

/-- The case-insensitive dedupe key of a row: `(value or label or url).lower()`
when any field is non-empty. -/
def rowKeyOf (vks lks wks : List String) (b : Binding) : Option String :=
  let t := rowTriple vks lks wks b
  if t.value = "" ∧ t.label = "" ∧ t.wikipediaUrl = "" then none
  else
    some (pyLower
      (if ¬ t.value = "" then t.value else if ¬ t.label = "" then t.label else t.wikipediaUrl))

/-- Fill the empty fields of an existing entry from a later row's triple. -/
def fillEntry (e t : LinkedEntity) : LinkedEntity :=
  { value := if e.value = "" ∧ ¬ t.value = "" then t.value else e.value
    label := if e.label = "" ∧ ¬ t.label = "" then t.label else e.label
    wikipediaUrl :=
      if e.wikipediaUrl = "" ∧ ¬ t.wikipediaUrl = "" then t.wikipediaUrl
      else e.wikipediaUrl }

theorem collectStep_eq (vks lks wks : List String) (acc : List (String × LinkedEntity))
    (b : Binding) :
    collectStep vks lks wks acc b =
      match rowKeyOf vks lks wks b with
      | none => acc
      | some key =>
        if acc.any (fun p => p.1 = key) then
          acc.map (fun p =>
            if p.1 = key then (p.1, fillEntry p.2 (rowTriple vks lks wks b)) else p)
        else acc ++ [(key, rowTriple vks lks wks b)] := by
  unfold collectStep rowKeyOf rowTriple fillEntry
  by_cases h1 : pyStrip (bindingValue b vks "") = "" ∧ pyStrip (bindingValue b lks "") = "" ∧
      pyStrip (bindingValue b wks "") = ""
  · rw [if_pos h1, if_pos h1]
  · rw [if_neg h1, if_neg h1]

def firstNonemptyStr : List String → String
  | [] => ""
  | s :: rest => if ¬ s = "" then s else firstNonemptyStr rest

/-- The specification-side merged entry for a list of row triples: each field
is the first non-empty occurrence in row order. -/
def mergedTriple (ts : List LinkedEntity) : LinkedEntity :=
  ⟨firstNonemptyStr (ts.map (·.value)), firstNonemptyStr (ts.map (·.label)),
    firstNonemptyStr (ts.map (·.wikipediaUrl))⟩

/-- The triples of the rows contributing to one dedupe key, in row order. -/
def triplesFor (vks lks wks : List String) (key : String) (bs : List Binding) :
    List LinkedEntity :=
  bs.filterMap (fun b =>
    if rowKeyOf vks lks wks b = some key then some (rowTriple vks lks wks b) else none)

def entFind (key : String) : List (String × LinkedEntity) → Option LinkedEntity
  | [] => none
  | (k, e) :: rest => if key = k then some e else entFind key rest

theorem firstNonemptyStr_single (s : String) : firstNonemptyStr [s] = s := by
  by_cases h : s = "" <;> simp [firstNonemptyStr, h]

theorem mergedTriple_single (e : LinkedEntity) : mergedTriple [e] = e := by
  simp [mergedTriple, firstNonemptyStr_single]

theorem firstNonemptyStr_fill (a b : String) (l : List String) :
    firstNonemptyStr ((if a = "" ∧ ¬ b = "" then b else a) :: l) =
      firstNonemptyStr (a :: b :: l) := by
  by_cases ha : a = ""
  · by_cases hb : b = "" <;> simp [firstNonemptyStr, ha, hb]
  · simp [firstNonemptyStr, ha]

theorem mergedTriple_fill (e t : LinkedEntity) (ts : List LinkedEntity) :
    mergedTriple (fillEntry e t :: ts) = mergedTriple (e :: t :: ts) := by
  unfold mergedTriple fillEntry
  simp only [List.map_cons]
  rw [firstNonemptyStr_fill, firstNonemptyStr_fill, firstNonemptyStr_fill]

theorem entFind_isSome_iff_any (key : String) (acc : List (String × LinkedEntity)) :
    (entFind key acc).isSome = true ↔ acc.any (fun p => p.1 = key) = true := by
  induction acc with
  | nil => simp [entFind]
  | cons p rest ih =>
    obtain ⟨pk, pe⟩ := p
    simp only [entFind, List.any_cons]
    by_cases h : key = pk
    · subst h
      simp
    · rw [if_neg h]
      have h' : ¬ pk = key := fun hh => h hh.symm
      simp [h', ih]

theorem entFind_map_update_self (key : String) (t : LinkedEntity)
    (acc : List (String × LinkedEntity)) :
    entFind key (acc.map (fun p => if p.1 = key then (p.1, fillEntry p.2 t) else p)) =
      (entFind key acc).map (fun e => fillEntry e t) := by
  induction acc with
  | nil => rfl
  | cons p rest ih =>
    obtain ⟨pk, pe⟩ := p
    rw [List.map_cons]
    by_cases hpk : pk = key
    · subst hpk
      have hhd : (if (pk, pe).1 = pk then ((pk, pe).1, fillEntry (pk, pe).2 t) else (pk, pe)) =
          (pk, fillEntry pe t) := if_pos rfl
      rw [hhd]
      simp [entFind]
    · have hhd : (if (pk, pe).1 = key then ((pk, pe).1, fillEntry (pk, pe).2 t) else (pk, pe)) =
          (pk, pe) := if_neg hpk
      rw [hhd]
      simp only [entFind]
      by_cases hk : key = pk
      · exact absurd hk.symm hpk
      · rw [if_neg hk, if_neg hk]
        exact ih

theorem entFind_map_update_ne (key key' : String) (t : LinkedEntity) (h : ¬ key' = key)
    (acc : List (String × LinkedEntity)) :
    entFind key' (acc.map (fun p => if p.1 = key then (p.1, fillEntry p.2 t) else p)) =
      entFind key' acc := by
  induction acc with
  | nil => rfl
  | cons p rest ih =>
    obtain ⟨pk, pe⟩ := p
    rw [List.map_cons]
    by_cases hpk : pk = key
    · subst hpk
      have hhd : (if (pk, pe).1 = pk then ((pk, pe).1, fillEntry (pk, pe).2 t) else (pk, pe)) =
          (pk, fillEntry pe t) := if_pos rfl
      rw [hhd]
      simp only [entFind]
      rw [if_neg h, if_neg h]
      exact ih
    · have hhd : (if (pk, pe).1 = key then ((pk, pe).1, fillEntry (pk, pe).2 t) else (pk, pe)) =
          (pk, pe) := if_neg hpk
      rw [hhd]
      simp only [entFind]
      by_cases hk : key' = pk
      · rw [if_pos hk, if_pos hk]
      · rw [if_neg hk, if_neg hk]
        exact ih

theorem entFind_append (key : String) (e : String × LinkedEntity)
    (acc : List (String × LinkedEntity)) :
    entFind key (acc ++ [e]) =
      match entFind key acc with
      | some v => some v
      | none => entFind key [e] := by
  induction acc with
  | nil => simp [entFind]
  | cons p rest ih =>
    obtain ⟨pk, pe⟩ := p
    rw [List.cons_append]
    simp only [entFind]
    by_cases hk : key = pk
    · rw [if_pos hk, if_pos hk]
    · rw [if_neg hk, if_neg hk]
      exact ih

theorem any_fst_iff_mem_map {β : Type} (l : List (String × β)) (key : String) :
    l.any (fun p => p.1 = key) = true ↔ key ∈ l.map (·.1) := by
  rw [List.any_eq_true]
  constructor
  · rintro ⟨p, hp, hpk⟩
    rw [List.mem_map]
    exact ⟨p, hp, by simpa using hpk⟩
  · intro h
    rw [List.mem_map] at h
    obtain ⟨p, hp, hpk⟩ := h
    exact ⟨p, hp, by simpa using hpk⟩

theorem map_fst_collect_update (acc : List (String × LinkedEntity)) (key : String)
    (t : LinkedEntity) :
    (acc.map (fun p => if p.1 = key then (p.1, fillEntry p.2 t) else p)).map (·.1) =
      acc.map (·.1) := by
  rw [List.map_map]
  apply List.map_congr_left
  intro p _
  by_cases hp : p.1 = key
  · simp [hp]
  · simp [hp]

theorem collectKeys_fold (vks lks wks : List String) (bs : List Binding) :
    ∀ acc : List (String × LinkedEntity),
      ((bs.foldl (collectStep vks lks wks) acc).map (·.1)) =
        (bs.filterMap (rowKeyOf vks lks wks)).foldl
          (fun a k => if k ∈ a then a else a ++ [k]) (acc.map (·.1)) := by
  induction bs with
  | nil => intro acc; rfl
  | cons b bs ih =>
    intro acc
    rw [List.foldl_cons, List.filterMap_cons, collectStep_eq]
    cases hk : rowKeyOf vks lks wks b with
    | none => exact ih acc
    | some key =>
      simp only []
      rw [List.foldl_cons]
      by_cases hany : acc.any (fun p => p.1 = key) = true
      · rw [if_pos hany, ih, map_fst_collect_update,
          if_pos ((any_fst_iff_mem_map _ _).mp hany)]
      · rw [if_neg hany, ih]
        have hnot : key ∉ acc.map (·.1) := fun hmem =>
          hany ((any_fst_iff_mem_map _ _).mpr hmem)
        rw [if_neg hnot, List.map_append]
        rfl

theorem triplesFor_cons_hit (vks lks wks : List String) (key : String) (b : Binding)
    (bs : List Binding) (hk : rowKeyOf vks lks wks b = some key) :
    triplesFor vks lks wks key (b :: bs) =
      rowTriple vks lks wks b :: triplesFor vks lks wks key bs := by
  unfold triplesFor
  rw [List.filterMap_cons, hk]
  simp

theorem triplesFor_cons_miss (vks lks wks : List String) (key : String) (b : Binding)
    (bs : List Binding) (hk : ¬ rowKeyOf vks lks wks b = some key) :
    triplesFor vks lks wks key (b :: bs) = triplesFor vks lks wks key bs := by
  unfold triplesFor
  rw [List.filterMap_cons, if_neg hk]

theorem collect_fold_find (vks lks wks : List String) (bs : List Binding) :
    ∀ (acc : List (String × LinkedEntity)) (key : String),
      entFind key (bs.foldl (collectStep vks lks wks) acc) =
        match entFind key acc with
        | some e => some (mergedTriple (e :: triplesFor vks lks wks key bs))
        | none =>
          if (triplesFor vks lks wks key bs).isEmpty then none
          else some (mergedTriple (triplesFor vks lks wks key bs)) := by
  induction bs with
  | nil =>
    intro acc key
    cases h : entFind key acc with
    | none => simp [triplesFor, h]
    | some e => simp [triplesFor, h, mergedTriple_single]
  | cons b bs ih =>
    intro acc key
    rw [List.foldl_cons, collectStep_eq]
    cases hk : rowKeyOf vks lks wks b with
    | none =>
      rw [ih acc key, triplesFor_cons_miss vks lks wks key b bs (by rw [hk]; simp)]
    | some key' =>
      simp only []
      by_cases hkey : key' = key
      · subst hkey
        by_cases hany : acc.any (fun p => p.1 = key') = true
        · rw [if_pos hany, ih]
          have hsome : (entFind key' acc).isSome = true :=
            (entFind_isSome_iff_any key' acc).mpr hany
          cases he : entFind key' acc with
          | none => rw [he] at hsome; exact absurd hsome (by simp)
          | some e =>
            rw [entFind_map_update_self, he, triplesFor_cons_hit vks lks wks key' b bs hk]
            simp only [Option.map]
            rw [mergedTriple_fill]
        · rw [if_neg hany, ih]
          have hnone : entFind key' acc = none := by
            cases he : entFind key' acc with
            | none => rfl
            | some e =>
              exact absurd ((entFind_isSome_iff_any key' acc).mp (by rw [he]; rfl)) hany
          rw [entFind_append, hnone, triplesFor_cons_hit vks lks wks key' b bs hk]
          simp [entFind]
      · have hne : ¬ key = key' := fun hh => hkey hh.symm
        have htf : triplesFor vks lks wks key (b :: bs) = triplesFor vks lks wks key bs :=
          triplesFor_cons_miss vks lks wks key b bs (by rw [hk]; simp [hkey])
        by_cases hany : acc.any (fun p => p.1 = key') = true
        · rw [if_pos hany, ih, entFind_map_update_ne key' key _ hne, htf]
        · rw [if_neg hany, ih, entFind_append, htf]
          cases he : entFind key acc with
          | none => simp [entFind, if_neg hne]
          | some v => simp

/-! ### Lemmas on the Wikidata write pipeline -/

theorem takeWhile_eq_self_of_all {α : Type} (p : α → Bool) :
    ∀ l : List α, l.all p = true → l.takeWhile p = l
  | [], _ => rfl
  | c :: rest, h => by
    simp only [List.all_cons, Bool.and_eq_true] at h
    simp [List.takeWhile_cons, h.1, takeWhile_eq_self_of_all p rest h.2]

theorem digit_not_ws (c : Char) (h : c.isDigit = true) : c.isWhitespace = false := by
  by_contra hw
  rw [Bool.not_eq_false] at hw
  simp only [Char.isWhitespace, Bool.or_eq_true, decide_eq_true_eq] at hw
  rcases hw with ((h1 | h1) | h1) | h1 <;> (subst h1; exact absurd h (by decide))

theorem stripChars_of_no_ws (l : List Char) (h : ∀ c ∈ l, c.isWhitespace = false) :
    stripChars l = l := by
  unfold stripChars
  have h1 : l.dropWhile Char.isWhitespace = l := by
    rw [List.dropWhile_eq_self_iff]
    intro hl
    have hm : l.get ⟨0, hl⟩ ∈ l := List.get_mem l 0 hl
    rw [List.get_eq_getElem] at hm
    simp [h _ hm]
  rw [h1, List.rdropWhile_eq_self_iff]
  intro hl
  have hm : l.getLast hl ∈ l := List.getLast_mem hl
  simp [h _ hm]

/-- A string whose extracted QID is in canonical `Q`-plus-decimal-digits form,
the digit run being reproduced by the numeric round trip of
`_wikidata_numeric_qid` (`int(normalized[1:])`) followed by `f-string`
formatting (`Q{numeric_id}`). -/
def CanonicalQid (s : String) : Prop :=
  ∃ ds : List Char, ds ≠ [] ∧ ds.all Char.isDigit = true ∧
    extractWikidataQid s = ⟨'Q' :: ds⟩ ∧
    toString ((natOfDigits ds : Int)) = ⟨ds⟩

theorem extract_q_digits (ds : List Char) (hne : ds ≠ []) (hd : ds.all Char.isDigit = true) :
    extractWikidataQid ⟨'Q' :: ds⟩ = ⟨'Q' :: ds⟩ := by
  have ht : ds.takeWhile Char.isDigit = ds := takeWhile_eq_self_of_all _ ds hd
  have hq : extractQidDigits ('Q' :: ds) = some ds := by
    unfold extractQidDigits
    rw [if_pos (Or.inr rfl)]
    simp only [ht]
    rw [if_neg]
    simp [List.isEmpty_iff, hne]
  show (match extractQidDigits ('Q' :: ds) with
    | none => "" | some ds' => (⟨'Q' :: ds'⟩ : String)) = ⟨'Q' :: ds⟩
  rw [hq]

theorem canonical_ne_empty {s : String} (h : CanonicalQid s) :
    ¬ extractWikidataQid s = "" := by
  obtain ⟨ds, hne, _, hex, _⟩ := h
  rw [hex]
  intro hcon
  have := congrArg String.data hcon
  simp at this

theorem canonical_extract_self {s : String} (h : CanonicalQid s) :
    extractWikidataQid (extractWikidataQid s) = extractWikidataQid s := by
  obtain ⟨ds, hne, hd, hex, _⟩ := h
  rw [hex, extract_q_digits ds hne hd]

theorem canonical_strip_self {s : String} (h : CanonicalQid s) :
    pyStrip (extractWikidataQid s) = extractWikidataQid s := by
  obtain ⟨ds, hne, hd, hex, _⟩ := h
  rw [hex]
  have hno : ∀ c ∈ ('Q' :: ds), c.isWhitespace = false := by
    intro c hc
    rcases List.mem_cons.mp hc with hc | hc
    · subst hc; decide
    · refine digit_not_ws c ?_
      rw [List.all_eq_true] at hd
      exact hd c hc
  show (⟨stripChars ('Q' :: ds)⟩ : String) = ⟨'Q' :: ds⟩
  rw [stripChars_of_no_ws _ hno]

theorem canonical_round_trip {s : String} (h : CanonicalQid s) :
    "Q" ++ toString ((natOfDigits ((extractWikidataQid s).data.drop 1) : Int)) =
      extractWikidataQid s := by
  obtain ⟨ds, hne, hd, hex, hrt⟩ := h
  rw [hex]
  show "Q" ++ toString ((natOfDigits (('Q' :: ds).drop 1) : Int)) = (⟨'Q' :: ds⟩ : String)
  have hdrop : ('Q' :: ds).drop 1 = ds := rfl
  rw [hdrop, hrt]
  rfl

theorem extract_empty : extractWikidataQid "" = "" := rfl

theorem pyStrip_empty : pyStrip "" = "" := rfl

theorem snaksGet_append (l1 l2 : RefSnaks) (k : String) :
    snaksGet (l1 ++ l2) k =
      match snaksGet l1 k with
      | some v => some v
      | none => snaksGet l2 k := by
  induction l1 with
  | nil => rfl
  | cons p rest ih =>
    obtain ⟨pk, pv⟩ := p
    by_cases hk : k = pk
    · simp [snaksGet, hk]
    · simp only [List.cons_append, snaksGet, if_neg hk]
      exact ih

theorem snaksGet_optSnakBlock_ne (c : Prop) [Decidable c] (k1 k : String)
    (v : List SnakValue) (h : ¬ k = k1) : snaksGet (optSnakBlock c k1 v) k = none := by
  by_cases hc : c <;> simp [optSnakBlock, hc, snaksGet, h]

theorem snaksGet_optSnakBlock_self (c : Prop) [Decidable c] (hc : c) (k : String)
    (v : List SnakValue) : snaksGet (optSnakBlock c k v) k = some v := by
  simp [optSnakBlock, hc, snaksGet]

theorem claimsGet_map_upd (st : EntityClaims) (propertyId : String) (c : ClaimRec) :
    claimsGet (st.map (fun p => if p.1 = propertyId then (p.1, p.2 ++ [c]) else p))
        propertyId =
      (claimsGet st propertyId).map (fun v => v ++ [c]) := by
  induction st with
  | nil => rfl
  | cons p rest ih =>
    obtain ⟨pk, pv⟩ := p
    simp only [List.map_cons]
    by_cases hk : pk = propertyId
    · have h1 : (if (pk, pv).1 = propertyId then ((pk, pv).1, (pk, pv).2 ++ [c])
          else (pk, pv)) = (pk, pv ++ [c]) := if_pos hk
      rw [h1]
      simp only [claimsGet]
      rw [if_pos hk.symm, if_pos hk.symm]
      rfl
    · have h1 : (if (pk, pv).1 = propertyId then ((pk, pv).1, (pk, pv).2 ++ [c])
          else (pk, pv)) = (pk, pv) := if_neg hk
      rw [h1]
      simp only [claimsGet]
      have hne : ¬ propertyId = pk := fun hcon => hk hcon.symm
      rw [if_neg hne, if_neg hne]
      exact ih

theorem claimsGet_append_right_none (st : EntityClaims) (propertyId : String)
    (c : ClaimRec) (h : claimsGet st propertyId = none) :
    claimsGet (st ++ [(propertyId, [c])]) propertyId = some [c] := by
  induction st with
  | nil => simp [claimsGet]
  | cons p rest ih =>
    obtain ⟨pk, pv⟩ := p
    simp only [claimsGet] at h
    by_cases hk : propertyId = pk
    · rw [if_pos hk] at h
      exact absurd h (by simp)
    · rw [if_neg hk] at h
      simp only [List.cons_append, claimsGet, if_neg hk]
      exact ih h

theorem claimsGet_addClaim_self (st : EntityClaims) (propertyId : String) (c : ClaimRec) :
    claimsGet (addClaim st propertyId c) propertyId =
      some ((claimsGet st propertyId).getD [] ++ [c]) := by
  unfold addClaim
  cases hk : claimsGet st propertyId with
  | some v =>
    rw [if_pos (show (some v).isSome = true from rfl)]
    rw [claimsGet_map_upd, hk]
    rfl
  | none =>
    rw [if_neg (show ¬ (none : Option (List ClaimRec)).isSome = true from by simp)]
    rw [claimsGet_append_right_none st propertyId c hk]
    rfl

theorem claimsGet_mapClaims (u : ClaimRec → ClaimRec) (st : EntityClaims) (k : String) :
    claimsGet (mapClaims u st) k = (claimsGet st k).map (List.map u) := by
  induction st with
  | nil => rfl
  | cons p rest ih =>
    obtain ⟨pk, pv⟩ := p
    simp only [mapClaims, List.map_cons] at ih ⊢
    by_cases h : k = pk
    · simp [claimsGet, h]
    · simp only [claimsGet, if_neg h]
      exact ih

theorem claimMatchesTarget_congr (t : String) (u : ClaimRec → ClaimRec)
    (hu : ∀ c, (u c).mainsnakValue = c.mainsnakValue) (c : ClaimRec) :
    claimMatchesTarget t (u c) = claimMatchesTarget t c := by
  unfold claimMatchesTarget
  rw [hu]

theorem entityItemClaims_mapClaims (u : ClaimRec → ClaimRec)
    (hu : ∀ c, (u c).mainsnakValue = c.mainsnakValue) (st : EntityClaims) (k t : String) :
    entityItemClaims (mapClaims u st) k t = (entityItemClaims st k t).map u := by
  unfold entityItemClaims
  by_cases ht : extractWikidataQid t = ""
  · simp [ht]
  · rw [if_neg ht, if_neg ht, claimsGet_mapClaims]
    cases hk : claimsGet st k with
    | none => rfl
    | some entries =>
      simp only [Option.map_some']
      rw [List.filter_map]
      congr 1
      apply List.filter_congr
      intro x _
      rw [Function.comp_apply]
      exact claimMatchesTarget_congr (extractWikidataQid t) u hu x

theorem snaksGet_app5 (b t a pn lw : RefSnaks) (k : String) :
    snaksGet (b ++ t ++ a ++ pn ++ lw) k =
      match snaksGet b k with
      | some v => some v
      | none =>
        match snaksGet t k with
        | some v => some v
        | none =>
          match snaksGet a k with
          | some v => some v
          | none =>
            match snaksGet pn k with
            | some v => some v
            | none => snaksGet lw k := by
  rw [snaksGet_append, snaksGet_append, snaksGet_append, snaksGet_append]
  cases snaksGet b k <;> cases snaksGet t k <;> cases snaksGet a k <;>
    cases snaksGet pn k <;> rfl

theorem snaksGet_app6 (b t a m pn lw : RefSnaks) (k : String) :
    snaksGet (b ++ t ++ a ++ m ++ pn ++ lw) k =
      match snaksGet b k with
      | some v => some v
      | none =>
        match snaksGet t k with
        | some v => some v
        | none =>
          match snaksGet a k with
          | some v => some v
          | none =>
            match snaksGet m k with
            | some v => some v
            | none =>
              match snaksGet pn k with
              | some v => some v
              | none => snaksGet lw k := by
  rw [snaksGet_append, snaksGet_append, snaksGet_append, snaksGet_append, snaksGet_append]
  cases snaksGet b k <;> cases snaksGet t k <;> cases snaksGet a k <;>
    cases snaksGet m k <;> cases snaksGet pn k <;> rfl

theorem refHasStr_written (snaks : RefSnaks) (w : String) (hw : ¬ w = "")
    (hwfix : pyStrip w = w) (h854 : snaksGet snaks "P854" = some [.sStr w]) :
    referenceHasStringSnak snaks "P854" w = true := by
  simp only [referenceHasStringSnak]
  rw [hwfix, if_neg hw, h854]
  simp [snakValueTruthy, snakValueStr, hw, hwfix]

theorem refHasEnt_written (snaks : RefSnaks) (k pin : String)
    (hpin : ¬ extractWikidataQid pin = "" → ∃ vs, snaksGet snaks k = some vs ∧
      ∃ v ∈ vs, entityIdFromClaimValue v = extractWikidataQid pin) :
    referenceHasEntitySnak snaks k pin = true := by
  simp only [referenceHasEntitySnak]
  by_cases h0 : extractWikidataQid pin = ""
  · rw [if_pos h0]
  · obtain ⟨vs, hvs, v, hvmem, hveq⟩ := hpin h0
    rw [if_neg h0, hvs, List.any_eq_true]
    exact ⟨v, hvmem, by simp [hveq]⟩

theorem claimHas_of_written (claim : ClaimRec) (snaks : RefSnaks) (w pin low : String)
    (hw : ¬ w = "") (hwfix : pyStrip w = w)
    (hmem : snaks ∈ claim.references)
    (h854 : snaksGet snaks "P854" = some [.sStr w])
    (hpin : ¬ extractWikidataQid pin = "" → ∃ vs, snaksGet snaks "P1433" = some vs ∧
      ∃ v ∈ vs, entityIdFromClaimValue v = extractWikidataQid pin)
    (hlow : ¬ extractWikidataQid low = "" → ∃ vs, snaksGet snaks "P407" = some vs ∧
      ∃ v ∈ vs, entityIdFromClaimValue v = extractWikidataQid low) :
    claimHasMatchingSourceReference claim w pin low = true := by
  simp only [claimHasMatchingSourceReference]
  rw [hwfix, if_neg hw, List.any_eq_true]
  refine ⟨snaks, hmem, ?_⟩
  rw [Bool.and_eq_true, Bool.and_eq_true]
  exact ⟨⟨refHasStr_written snaks w hw hwfix h854,
    refHasEnt_written snaks "P1433" pin hpin⟩,
    refHasEnt_written snaks "P407" low hlow⟩

theorem entityId_of_written (n : Int) :
    entityIdFromClaimValue (.sEntity none (some n)) = "Q" ++ toString n := rfl

/-- The reference snaks built for a non-empty source URL: the call succeeds
(under an empty or valid publication date), the result is non-empty, `P854`
holds exactly the stripped URL, and the `P1433`/`P407` groups (when their QID
is supplied in canonical form) hold entity snaks whose extracted id round
trips to the supplied QID. -/
theorem sourceSnaks_spec (today : TimeDataValue)
    (url title titleLang author pubdate p1433 p407 : String)
    (hurl : ¬ pyStrip url = "")
    (hpub : pyStrip pubdate = "" ∨ ∃ dv, wikidataTimeDatavalue (pyStrip pubdate) = .ok dv)
    (h1433 : extractWikidataQid (pyStrip p1433) = "" ∨ CanonicalQid (pyStrip p1433))
    (h407 : extractWikidataQid (pyStrip p407) = "" ∨ CanonicalQid (pyStrip p407)) :
    ∃ snaks,
      wikidataSourceSnaks today (pyStrip url) (pyStrip title) (pyStrip titleLang)
          (pyStrip author) (pyStrip pubdate) (extractWikidataQid (pyStrip p1433))
          (extractWikidataQid (pyStrip p407)) = .ok snaks ∧
        snaks.isEmpty = false ∧
        snaksGet snaks "P854" = some [.sStr (pyStrip url)] ∧
        (¬ extractWikidataQid (pyStrip p1433) = "" →
          ∃ vs, snaksGet snaks "P1433" = some vs ∧
            ∃ v ∈ vs, entityIdFromClaimValue v = extractWikidataQid (pyStrip p1433)) ∧
        (¬ extractWikidataQid (pyStrip p407) = "" →
          ∃ vs, snaksGet snaks "P407" = some vs ∧
            ∃ v ∈ vs, entityIdFromClaimValue v = extractWikidataQid (pyStrip p407)) := by
  have hP : extractWikidataQid (pyStrip (extractWikidataQid (pyStrip p1433))) =
      extractWikidataQid (pyStrip p1433) := by
    rcases h1433 with h | h
    · rw [h]; rfl
    · rw [canonical_strip_self h, canonical_extract_self h]
  have hL : extractWikidataQid (pyStrip (extractWikidataQid (pyStrip p407))) =
      extractWikidataQid (pyStrip p407) := by
    rcases h407 with h | h
    · rw [h]; rfl
    · rw [canonical_strip_self h, canonical_extract_self h]
  simp only [wikidataSourceSnaks]
  rw [pyStrip_idem url, pyStrip_idem title, pyStrip_idem author, pyStrip_idem pubdate,
    hP, hL]
  rw [if_neg hurl]
  have hb854 : snaksGet [("P854", [SnakValue.sStr (pyStrip url)]),
      ("P813", [SnakValue.sTime today])] "P854" = some [SnakValue.sStr (pyStrip url)] := by
    simp [snaksGet]
  have hb1433 : snaksGet [("P854", [SnakValue.sStr (pyStrip url)]),
      ("P813", [SnakValue.sTime today])] "P1433" = none := by simp [snaksGet]
  have hb407 : snaksGet [("P854", [SnakValue.sStr (pyStrip url)]),
      ("P813", [SnakValue.sTime today])] "P407" = none := by simp [snaksGet]
  have hpinmk : ∀ hne : ¬ extractWikidataQid (pyStrip p1433) = "",
      ∃ v ∈ [SnakValue.sEntity none
          (some (natOfDigits ((extractWikidataQid (pyStrip p1433)).data.drop 1) : Int))],
        entityIdFromClaimValue v = extractWikidataQid (pyStrip p1433) := by
    intro hne
    rcases h1433 with h | h
    · exact absurd h hne
    · exact ⟨_, List.mem_singleton_self _, by
        rw [entityId_of_written]
        exact canonical_round_trip h⟩
  have hlowmk : ∀ hne : ¬ extractWikidataQid (pyStrip p407) = "",
      ∃ v ∈ [SnakValue.sEntity none
          (some (natOfDigits ((extractWikidataQid (pyStrip p407)).data.drop 1) : Int))],
        entityIdFromClaimValue v = extractWikidataQid (pyStrip p407) := by
    intro hne
    rcases h407 with h | h
    · exact absurd h hne
    · exact ⟨_, List.mem_singleton_self _, by
        rw [entityId_of_written]
        exact canonical_round_trip h⟩
  by_cases hd : pyStrip pubdate = ""
  · rw [if_neg (by simp [hd])]
    refine ⟨_, rfl, rfl, ?_, ?_, ?_⟩
    · rw [snaksGet_app5, hb854]
    · intro hne
      refine ⟨_, ?_, hpinmk hne⟩
      rw [snaksGet_app5, hb1433,
        snaksGet_optSnakBlock_ne _ _ _ _ (by decide : ¬ "P1433" = "P1476"),
        snaksGet_optSnakBlock_ne _ _ _ _ (by decide : ¬ "P1433" = "P2093"),
        snaksGet_optSnakBlock_self _ hne _ _]
    · intro hne
      refine ⟨_, ?_, hlowmk hne⟩
      rw [snaksGet_app5, hb407,
        snaksGet_optSnakBlock_ne _ _ _ _ (by decide : ¬ "P407" = "P1476"),
        snaksGet_optSnakBlock_ne _ _ _ _ (by decide : ¬ "P407" = "P2093")]
      by_cases hpinc : extractWikidataQid (pyStrip p1433) = ""
      · rw [snaksGet_optSnakBlock_ne _ _ _ _ (by decide : ¬ "P407" = "P1433"),
          snaksGet_optSnakBlock_self _ hne _ _]
      · rw [snaksGet_optSnakBlock_ne _ _ _ _ (by decide : ¬ "P407" = "P1433"),
          snaksGet_optSnakBlock_self _ hne _ _]
  · have hd' : ¬ pyStrip pubdate = "" := hd
    rcases hpub with h | ⟨dv, hdv⟩
    · exact absurd h hd
    rw [if_pos hd', hdv]
    have hm854 : snaksGet [("P577", [SnakValue.sTime dv])] "P854" = none := by
      simp [snaksGet]
    have hm1433 : snaksGet [("P577", [SnakValue.sTime dv])] "P1433" = none := by
      simp [snaksGet]
    have hm407 : snaksGet [("P577", [SnakValue.sTime dv])] "P407" = none := by
      simp [snaksGet]
    refine ⟨_, rfl, rfl, ?_, ?_, ?_⟩
    · rw [snaksGet_app6, hb854]
    · intro hne
      refine ⟨_, ?_, hpinmk hne⟩
      rw [snaksGet_app6, hb1433,
        snaksGet_optSnakBlock_ne _ _ _ _ (by decide : ¬ "P1433" = "P1476"),
        snaksGet_optSnakBlock_ne _ _ _ _ (by decide : ¬ "P1433" = "P2093"), hm1433,
        snaksGet_optSnakBlock_self _ hne _ _]
    · intro hne
      refine ⟨_, ?_, hlowmk hne⟩
      rw [snaksGet_app6, hb407,
        snaksGet_optSnakBlock_ne _ _ _ _ (by decide : ¬ "P407" = "P1476"),
        snaksGet_optSnakBlock_ne _ _ _ _ (by decide : ¬ "P407" = "P2093"), hm407,
        snaksGet_optSnakBlock_ne _ _ _ _ (by decide : ¬ "P407" = "P1433"),
        snaksGet_optSnakBlock_self _ hne _ _]

theorem refUpd_mainsnak (claimId : String) (snaks : RefSnaks) (c : ClaimRec) :
    (refUpd claimId snaks c).mainsnakValue = c.mainsnakValue := by
  unfold refUpd; split <;> rfl

theorem qualUpd_mainsnak (claimId propertyId : String) (v : SnakValue) (c : ClaimRec) :
    (qualUpd claimId propertyId v c).mainsnakValue = c.mainsnakValue := by
  unfold qualUpd; split <;> rfl

theorem qualUpd_id (claimId propertyId : String) (v : SnakValue) (c : ClaimRec) :
    (qualUpd claimId propertyId v c).id = c.id := by
  unfold qualUpd; split <;> rfl

theorem qualUpd_references (claimId propertyId : String) (v : SnakValue) (c : ClaimRec) :
    (qualUpd claimId propertyId v c).references = c.references := by
  unfold qualUpd; split <;> rfl

theorem entityItemClaims_qualifiersFold (claimId : String)
    (qs : List (String × Option SnakValue)) (k t : String) :
    ∀ st : EntityClaims, ∃ u : ClaimRec → ClaimRec,
      (∀ c, (u c).mainsnakValue = c.mainsnakValue ∧ (u c).id = c.id ∧
        (u c).references = c.references) ∧
      entityItemClaims (qualifiersFold claimId qs st) k t =
        (entityItemClaims st k t).map u := by
  induction qs with
  | nil =>
    intro st
    exact ⟨id, fun c => ⟨rfl, rfl, rfl⟩, by simp [qualifiersFold]⟩
  | cons q rest ih =>
    intro st
    have hstep : qualifiersFold claimId (q :: rest) st =
        qualifiersFold claimId rest
          (if qualifierSkipped q.2 then st
           else setQualifier st claimId q.1 (q.2.getD .sOther)) := by
      simp [qualifiersFold]
    by_cases hs : qualifierSkipped q.2 = true
    · obtain ⟨u, hu, heq⟩ := ih st
      refine ⟨u, hu, ?_⟩
      rw [hstep, if_pos hs]
      exact heq
    · obtain ⟨u, hu, heq⟩ := ih (setQualifier st claimId q.1 (q.2.getD .sOther))
      refine ⟨u ∘ qualUpd claimId q.1 (q.2.getD .sOther), ?_, ?_⟩
      · intro c
        refine ⟨?_, ?_, ?_⟩
        · rw [Function.comp_apply, (hu _).1, qualUpd_mainsnak]
        · rw [Function.comp_apply, (hu _).2.1, qualUpd_id]
        · rw [Function.comp_apply, (hu _).2.2, qualUpd_references]
      · rw [hstep, if_neg hs, heq]
        unfold setQualifier
        rw [entityItemClaims_mapClaims _ (qualUpd_mainsnak claimId q.1 _) st k t]
        rw [List.map_map]

theorem entityItemClaims_addClaim (st : EntityClaims) (k t : String) (nc : ClaimRec)
    (hfix : extractWikidataQid t = t) (htne : ¬ t = "")
    (hmatches : claimMatchesTarget t nc = true)
    (hprev : entityItemClaims st k t = []) :
    entityItemClaims (addClaim st k nc) k t = [nc] := by
  unfold entityItemClaims at hprev ⊢
  rw [hfix] at hprev ⊢
  rw [if_neg htne] at hprev ⊢
  rw [claimsGet_addClaim_self]
  cases hk : claimsGet st k with
  | none =>
    simp [List.filter, hmatches]
  | some entries =>
    simp only [hk] at hprev
    simp [List.filter_append, hprev, List.filter, hmatches]

theorem createWikidataClaim_eq (freshId : String) (today : TimeDataValue)
    (st : EntityClaims) (propertyId : String) (dv : SnakValue)
    (u t tl a d pin low : String) (qs : List (String × Option SnakValue)) (snaks : RefSnaks)
    (hfresh : ¬ pyStrip freshId = "")
    (hsnaks : wikidataSourceSnaks today u t tl a d pin low = .ok snaks) :
    createWikidataClaim freshId today st propertyId dv u t tl a d pin low qs =
      .ok (qualifiersFold (pyStrip freshId) qs
          (if snaks.isEmpty then
            addClaim st propertyId ⟨pyStrip freshId, some dv, [], []⟩
          else
            setReference (addClaim st propertyId ⟨pyStrip freshId, some dv, [], []⟩)
              (pyStrip freshId) snaks),
        pyStrip freshId, if snaks.isEmpty then 0 else 1) := by
  simp only [createWikidataClaim]
  rw [if_neg hfresh]
  simp only [hsnaks]

theorem attachRefsLoop_nil (today : TimeDataValue) (st : EntityClaims)
    (u t tl a d pin low : String) (n : Nat) :
    attachRefsLoop today st [] u t tl a d pin low n = .ok (st, n) := rfl

theorem attachRefsLoop_skip (today : TimeDataValue) (st : EntityClaims) (claim : ClaimRec)
    (rest : List ClaimRec) (u t tl a d pin low : String) (n : Nat)
    (hid : ¬ pyStrip claim.id = "")
    (hmatchT : claimHasMatchingSourceReference claim u pin low = true) :
    attachRefsLoop today st (claim :: rest) u t tl a d pin low n =
      attachRefsLoop today st rest u t tl a d pin low n := by
  simp only [attachRefsLoop]
  rw [if_neg hid, if_pos hmatchT]

theorem attachRefsLoop_attach (today : TimeDataValue) (st : EntityClaims) (claim : ClaimRec)
    (rest : List ClaimRec) (u t tl a d pin low : String) (n : Nat) (snaks : RefSnaks)
    (hid : ¬ pyStrip claim.id = "")
    (hmatchF : claimHasMatchingSourceReference claim u pin low = false)
    (hsnaks : wikidataSourceSnaks today u t tl a d pin low = .ok snaks)
    (hne : snaks.isEmpty = false) :
    attachRefsLoop today st (claim :: rest) u t tl a d pin low n =
      attachRefsLoop today (setReference st (pyStrip claim.id) snaks) rest
        u t tl a d pin low (n + 1) := by
  simp only [attachRefsLoop]
  rw [if_neg hid,
    if_neg (show ¬ claimHasMatchingSourceReference claim u pin low = true from by
      rw [hmatchF]; exact Bool.false_ne_true)]
  simp only [hsnaks]
  rw [if_neg (show ¬ snaks.isEmpty = true from by rw [hne]; exact Bool.false_ne_true)]

theorem ensure_eq_create (freshId : String) (today : TimeDataValue) (st : EntityClaims)
    (entityId c settingsC url title titleLang author pubdate p1433 p407 reason : String)
    (st' : EntityClaims) (cid : String) (refs : Nat)
    (hent : ¬ extractWikidataQid entityId = "")
    (hc0 : ¬ c = "")
    (hC : ¬ extractWikidataQid c = "")
    (hfix : extractWikidataQid (extractWikidataQid c) = extractWikidataQid c)
    (hmatch : entityItemClaims st "P5008" (extractWikidataQid c) = [])
    (hcreate : createWikidataClaim freshId today st "P5008"
        (.sEntity none (some (natOfDigits ((extractWikidataQid c).data.drop 1) : Int)))
        (pyStrip url) (pyStrip title) (pyStrip titleLang) (pyStrip author) (pyStrip pubdate)
        (extractWikidataQid (pyStrip p1433)) (extractWikidataQid (pyStrip p407))
        [("P958", some (.sStr (pyStrip reason)))] = .ok (st', cid, refs)) :
    ensureWikidataCollectionMembership freshId today st entityId (some c) settingsC url
        title titleLang author pubdate p1433 p407 reason = .ok (st', 1, refs, false) := by
  have hdv : wikidataEntityDatavalue (extractWikidataQid c) =
      .ok (.sEntity none (some (natOfDigits ((extractWikidataQid c).data.drop 1) : Int))) := by
    simp only [wikidataEntityDatavalue]
    rw [hfix, if_neg hC]
  simp only [ensureWikidataCollectionMembership]
  rw [if_neg hent, if_pos hc0, if_neg hC, hmatch]
  rw [if_neg (show ¬ ¬ (List.isEmpty ([] : List ClaimRec) = true) from not_not_intro rfl)]
  simp only [hdv]
  simp only [hcreate]

theorem ensure_eq_listed_attach (freshId : String) (today : TimeDataValue)
    (st : EntityClaims)
    (entityId c settingsC url title titleLang author pubdate p1433 p407 reason : String)
    (mcs : List ClaimRec) (st' : EntityClaims) (n : Nat)
    (hent : ¬ extractWikidataQid entityId = "")
    (hc0 : ¬ c = "") (hC : ¬ extractWikidataQid c = "")
    (hmatch : entityItemClaims st "P5008" (extractWikidataQid c) = mcs)
    (hF : mcs.isEmpty = false)
    (hurl : ¬ pyStrip url = "")
    (hloop : attachRefsLoop today st mcs (pyStrip url) (pyStrip title) (pyStrip titleLang)
        (pyStrip author) (pyStrip pubdate) (extractWikidataQid (pyStrip p1433))
        (extractWikidataQid (pyStrip p407)) 0 = .ok (st', n)) :
    ensureWikidataCollectionMembership freshId today st entityId (some c) settingsC url
        title titleLang author pubdate p1433 p407 reason = .ok (st', 0, n, true) := by
  simp only [ensureWikidataCollectionMembership]
  rw [if_neg hent, if_pos hc0, if_neg hC, hmatch]
  rw [if_pos (show ¬ mcs.isEmpty = true from by rw [hF]; exact Bool.false_ne_true)]
  rw [if_pos hurl]
  simp only [hloop]

theorem ensure_eq_listed_noUrl (freshId : String) (today : TimeDataValue)
    (st : EntityClaims)
    (entityId c settingsC url title titleLang author pubdate p1433 p407 reason : String)
    (mcs : List ClaimRec)
    (hent : ¬ extractWikidataQid entityId = "")
    (hc0 : ¬ c = "") (hC : ¬ extractWikidataQid c = "")
    (hmatch : entityItemClaims st "P5008" (extractWikidataQid c) = mcs)
    (hF : mcs.isEmpty = false)
    (hurl0 : pyStrip url = "") :
    ensureWikidataCollectionMembership freshId today st entityId (some c) settingsC url
        title titleLang author pubdate p1433 p407 reason = .ok (st, 0, 0, true) := by
  simp only [ensureWikidataCollectionMembership]
  rw [if_neg hent, if_pos hc0, if_neg hC, hmatch]
  rw [if_pos (show ¬ mcs.isEmpty = true from by rw [hF]; exact Bool.false_ne_true)]
  rw [if_neg (show ¬ ¬ pyStrip url = "" from not_not_intro hurl0)]

theorem claimHas_empty_url (claim : ClaimRec) (w pin low : String)
    (hw : pyStrip w = "") :
    claimHasMatchingSourceReference claim w pin low = false := by
  simp only [claimHasMatchingSourceReference]
  rw [if_pos hw]

/-! ### Claim theorems -/

/-- C4: for every input sequence of binding rows, the reconciled output of the
merge in `fetch_locations` has exactly one aggregated record per distinct
(stripped) entity URI — rows whose record formation fails, or whose URI is
empty, contribute nothing — and the records appear in order of the first
occurrence of their entity URI in the input sequence. -/
theorem C4_one_record_per_uri_in_first_seen_order (bs : List Binding) :
    (mergeBindings bs).map itemUriKey = firstOccurrences (bs.filterMap rowUriKey)
    ∧ ((mergeBindings bs).map itemUriKey).Nodup := by
  have h1 : (groupByUri bs).map (·.1) = firstOccurrences (bs.filterMap rowUriKey) := by
    unfold groupByUri firstOccurrences
    simpa using groupKeys_fold bs []
  have h2 : ∀ g ∈ groupByUri bs, itemUriKey g.2.1 = g.1 :=
    groupItem_inv bs [] (by intro g hg; cases hg)
  have h3 : (mergeBindings bs).map itemUriKey = (groupByUri bs).map (·.1) := by
    unfold mergeBindings
    rw [List.map_map]
    apply List.map_congr_left
    intro g hg
    simpa [itemUriKey_applyArchitectValues] using h2 g hg
  refine ⟨h3.trans h1, ?_⟩
  rw [h3, h1]
  exact firstOccurrences_nodup _

theorem dictGet_map_update_self (d : PyDict) (k : String) (v : PyVal)
    (h : (dictGet d k).isSome = true) :
    dictGet (d.map (fun p => if p.1 = k then (k, v) else p)) k = some v := by
  induction d with
  | nil => simp [dictGet] at h
  | cons p rest ih =>
    obtain ⟨pk, pv⟩ := p
    by_cases hpk : pk = k
    · subst hpk
      rw [List.map_cons]
      have hhd : (if (pk, pv).1 = pk then (pk, v) else (pk, pv)) = (pk, v) := if_pos rfl
      rw [hhd]
      simp [dictGet]
    · have hne : ¬ k = pk := fun hh => hpk hh.symm
      rw [dictGet, if_neg hne] at h
      rw [List.map_cons]
      have hhd : (if (pk, pv).1 = k then (k, v) else (pk, pv)) = (pk, pv) := if_neg hpk
      rw [hhd, dictGet, if_neg hne]
      exact ih h

theorem dictGet_append_self (d : PyDict) (k : String) (v : PyVal)
    (h : dictGet d k = none) :
    dictGet (d ++ [(k, v)]) k = some v := by
  induction d with
  | nil => simp [dictGet]
  | cons p rest ih =>
    obtain ⟨pk, pv⟩ := p
    rw [dictGet] at h
    rw [List.cons_append, dictGet]
    by_cases hkpk : k = pk
    · rw [if_pos hkpk] at h
      exact absurd h (by simp)
    · rw [if_neg hkpk] at h
      rw [if_neg hkpk]
      exact ih h

theorem dictGet_dictSet_self (d : PyDict) (k : String) (v : PyVal) :
    dictGet (dictSet d k v) k = some v := by
  unfold dictSet
  split
  case isTrue h => exact dictGet_map_update_self d k v h
  case isFalse h =>
    apply dictGet_append_self
    cases hl : dictGet d k with
    | none => rfl
    | some w => rw [hl] at h; exact absurd rfl h

theorem dictStrGet_dictSet_ne (d : PyDict) (k k' : String) (v : PyVal) (h : ¬ k' = k) :
    dictStrGet (dictSet d k v) k' = dictStrGet d k' := by
  unfold dictStrGet
  rw [dictGet_dictSet_ne d k k' v h]

/-- C5 counterexample: a row whose architect value is whitespace-only but
carries a label makes the merged list's first entry have empty `value`, while
the record's primary `architect_p84` falls back to the base item's raw
whitespace value — so the primary fields do not equal the first entry of the
merged list as the claim states. -/
theorem C5_counterexample :
    dictGet (applyArchitectValues [("architect_p84", PyVal.vStr "  ")]
        [[("architectP84", "  "), ("architectP84Label", "L")]]) "architect_p84"
      = some (PyVal.vStr "  ")
    ∧ (collectLinkedEntities [[("architectP84", "  "), ("architectP84Label", "L")]]
        architectValueKeys architectLabelKeys architectWikiKeys).map (·.value) = [""]
    ∧ ¬ ("  " : String) = "" := by
  refine ⟨by decide, by decide, by decide⟩

/-- C5 (amended): the multi-value merge is de-duplicating and order-preserving
— the merged list has exactly one entry per case-insensitive dedupe key, in
first-occurrence order, and the entry for a key carries, per field, the first
non-empty value among that key's rows, so later rows merge into the existing
entry instead of appending a duplicate (determinism/idempotence over the same
input is inherent in the pure function); the record's primary single-valued
architect fields equal the corresponding fields of the first merged entry
whenever those are non-empty, falling back to the base record's raw field
values otherwise, and `architect_p84_values` is the merged list itself. -/
theorem C5_multi_value_merge (bs : List Binding) (vks lks wks : List String) (item : PyDict) :
    ((collectLinkedEntitiesWithKeys bs vks lks wks).map (·.1) =
        firstOccurrences (bs.filterMap (rowKeyOf vks lks wks))
      ∧ ((collectLinkedEntitiesWithKeys bs vks lks wks).map (·.1)).Nodup)
    ∧ (∀ key, entFind key (collectLinkedEntitiesWithKeys bs vks lks wks) =
        (if (triplesFor vks lks wks key bs).isEmpty then none
         else some (mergedTriple (triplesFor vks lks wks key bs))))
    ∧ (match collectLinkedEntities bs architectValueKeys architectLabelKeys architectWikiKeys with
       | [] => applyArchitectValues item bs = item
       | first :: _ =>
          dictGet (applyArchitectValues item bs) "architect_p84" =
            some (.vStr (if ¬ first.value = "" then first.value
              else dictStrGet item "architect_p84"))
          ∧ dictGet (applyArchitectValues item bs) "architect_p84_label" =
            some (.vStr (if ¬ first.label = "" then first.label
              else dictStrGet item "architect_p84_label"))
          ∧ dictGet (applyArchitectValues item bs) "architect_p84_wikipedia_url" =
            some (.vStr (if ¬ first.wikipediaUrl = "" then first.wikipediaUrl
              else dictStrGet item "architect_p84_wikipedia_url"))
          ∧ dictGet (applyArchitectValues item bs) "architect_p84_values" =
            some (.vEntList (collectLinkedEntities bs architectValueKeys architectLabelKeys
              architectWikiKeys))) := by
  have hvalues : ¬ ("architect_p84" : String) = "architect_p84_values" := by decide
  have hlblval : ¬ ("architect_p84_label" : String) = "architect_p84_values" := by decide
  have hlblp84 : ¬ ("architect_p84_label" : String) = "architect_p84" := by decide
  have hurlval : ¬ ("architect_p84_wikipedia_url" : String) = "architect_p84_values" := by decide
  have hurlp84 : ¬ ("architect_p84_wikipedia_url" : String) = "architect_p84" := by decide
  have hurllbl : ¬ ("architect_p84_wikipedia_url" : String) = "architect_p84_label" := by decide
  have hp84lbl : ¬ ("architect_p84" : String) = "architect_p84_label" := by decide
  have hp84url : ¬ ("architect_p84" : String) = "architect_p84_wikipedia_url" := by decide
  have hlblurl : ¬ ("architect_p84_label" : String) = "architect_p84_wikipedia_url" := by decide
  have hvalp84 : ¬ ("architect_p84_values" : String) = "architect_p84" := by decide
  have hvallbl : ¬ ("architect_p84_values" : String) = "architect_p84_label" := by decide
  have hvalurl : ¬ ("architect_p84_values" : String) = "architect_p84_wikipedia_url" := by decide
  refine ⟨⟨?_, ?_⟩, ?_, ?_⟩
  · unfold collectLinkedEntitiesWithKeys firstOccurrences
    simpa using collectKeys_fold vks lks wks bs []
  · have h1 : (collectLinkedEntitiesWithKeys bs vks lks wks).map (·.1) =
        firstOccurrences (bs.filterMap (rowKeyOf vks lks wks)) := by
      unfold collectLinkedEntitiesWithKeys firstOccurrences
      simpa using collectKeys_fold vks lks wks bs []
    rw [h1]
    exact firstOccurrences_nodup _
  · intro key
    have h := collect_fold_find vks lks wks bs [] key
    unfold collectLinkedEntitiesWithKeys
    simpa [entFind] using h
  · cases hc : collectLinkedEntities bs architectValueKeys architectLabelKeys
        architectWikiKeys with
    | nil =>
      simp only [applyArchitectValues]
      rw [hc]
    | cons first rest =>
      simp only [applyArchitectValues]
      rw [hc]
      simp only []
      refine ⟨?_, ?_, ?_, ?_⟩
      · rw [dictGet_dictSet_ne _ _ _ _ hp84url, dictGet_dictSet_ne _ _ _ _ hp84lbl,
          dictGet_dictSet_self, dictStrGet_dictSet_ne _ _ _ _ hvalues]
      · rw [dictGet_dictSet_ne _ _ _ _ hlblurl, dictGet_dictSet_self,
          dictStrGet_dictSet_ne _ _ _ _ hlblp84, dictStrGet_dictSet_ne _ _ _ _ hlblval]
      · rw [dictGet_dictSet_self, dictStrGet_dictSet_ne _ _ _ _ hurllbl,
          dictStrGet_dictSet_ne _ _ _ _ hurlp84, dictStrGet_dictSet_ne _ _ _ _ hurlval]
      · rw [dictGet_dictSet_ne _ _ _ _ hvalurl, dictGet_dictSet_ne _ _ _ _ hvallbl,
          dictGet_dictSet_ne _ _ _ _ hvalp84, dictGet_dictSet_self]

theorem enrichOne_dict_spec (cc vc : List (String × Int)) (d : PyDict) :
    ∃ d', enrichOne cc vc (.dict d) = .dict d'
      ∧ (∀ k, k ∉ enrichKeys → dictGet d' k = dictGet d k)
      ∧ (¬ enrichCategoryOf (.dict d) = "" →
          dictGet d' "commons_category" = some (.vStr (enrichCategoryOf (.dict d)))
          ∧ dictGet d' "commons_image_count_petscan" =
            some (match countsGet cc (enrichCategoryOf (.dict d)) with
              | some n => .vInt n
              | none => .vNone))
      ∧ (enrichCategoryOf (.dict d) = "" →
          dictGet d' "commons_category" = dictGet d "commons_category")
      ∧ (¬ enrichQidOf (.dict d) = "" →
          dictGet d' "view_it_image_count" =
            some (match countsGet vc (enrichQidOf (.dict d)) with
              | some n => .vInt n
              | none => .vNone)) := by
  have hkeys : ∀ k, k ∉ enrichKeys →
      ¬ k = "commons_category" ∧ ¬ k = "commons_category_url" ∧
        ¬ k = "commons_image_count_petscan" ∧ ¬ k = "view_it_qid" ∧
        ¬ k = "view_it_url" ∧ ¬ k = "view_it_image_count" := by
    intro k hk
    simp [enrichKeys] at hk
    exact hk
  have hccu : ¬ ("commons_category" : String) = "commons_category_url" := by decide
  have hccc : ¬ ("commons_category" : String) = "commons_image_count_petscan" := by decide
  have hccq : ¬ ("commons_category" : String) = "view_it_qid" := by decide
  have hccvu : ¬ ("commons_category" : String) = "view_it_url" := by decide
  have hccvc : ¬ ("commons_category" : String) = "view_it_image_count" := by decide
  have hcpq : ¬ ("commons_image_count_petscan" : String) = "view_it_qid" := by decide
  have hcpu : ¬ ("commons_image_count_petscan" : String) = "view_it_url" := by decide
  have hcpc : ¬ ("commons_image_count_petscan" : String) = "view_it_image_count" := by decide
  simp only [enrichOne]
  by_cases hc : enrichCategoryOf (.dict d) = ""
  · rw [if_neg (not_not_intro hc)]
    by_cases hq : enrichQidOf (.dict d) = ""
    · rw [if_neg (not_not_intro hq)]
      exact ⟨d, rfl, fun k _ => rfl, fun h => absurd hc h, fun _ => rfl,
        fun h => absurd hq h⟩
    · rw [if_pos hq]
      refine ⟨_, rfl, ?_, fun h => absurd hc h, ?_, ?_⟩
      · intro k hk
        obtain ⟨h1, h2, h3, h4, h5, h6⟩ := hkeys k hk
        rw [dictGet_dictSet_ne _ _ _ _ h6, dictGet_dictSet_ne _ _ _ _ h5,
          dictGet_dictSet_ne _ _ _ _ h4]
      · intro _
        rw [dictGet_dictSet_ne _ _ _ _ hccvc, dictGet_dictSet_ne _ _ _ _ hccvu,
          dictGet_dictSet_ne _ _ _ _ hccq]
      · intro _
        rw [dictGet_dictSet_self]
  · rw [if_pos hc]
    by_cases hq : enrichQidOf (.dict d) = ""
    · rw [if_neg (not_not_intro hq)]
      refine ⟨_, rfl, ?_, ?_, fun h => absurd h hc, fun h => absurd hq h⟩
      · intro k hk
        obtain ⟨h1, h2, h3, h4, h5, h6⟩ := hkeys k hk
        rw [dictGet_dictSet_ne _ _ _ _ h3, dictGet_dictSet_ne _ _ _ _ h2,
          dictGet_dictSet_ne _ _ _ _ h1]
      · intro _
        constructor
        · rw [dictGet_dictSet_ne _ _ _ _ hccc, dictGet_dictSet_ne _ _ _ _ hccu,
            dictGet_dictSet_self]
        · rw [dictGet_dictSet_self]
    · rw [if_pos hq]
      refine ⟨_, rfl, ?_, ?_, fun h => absurd h hc, ?_⟩
      · intro k hk
        obtain ⟨h1, h2, h3, h4, h5, h6⟩ := hkeys k hk
        rw [dictGet_dictSet_ne _ _ _ _ h6, dictGet_dictSet_ne _ _ _ _ h5,
          dictGet_dictSet_ne _ _ _ _ h4, dictGet_dictSet_ne _ _ _ _ h3,
          dictGet_dictSet_ne _ _ _ _ h2, dictGet_dictSet_ne _ _ _ _ h1]
      · intro _
        constructor
        · rw [dictGet_dictSet_ne _ _ _ _ hccvc, dictGet_dictSet_ne _ _ _ _ hccvu,
            dictGet_dictSet_ne _ _ _ _ hccq, dictGet_dictSet_ne _ _ _ _ hccc,
            dictGet_dictSet_ne _ _ _ _ hccu, dictGet_dictSet_self]
        · rw [dictGet_dictSet_ne _ _ _ _ hcpc, dictGet_dictSet_ne _ _ _ _ hcpu,
            dictGet_dictSet_ne _ _ _ _ hcpq, dictGet_dictSet_self]
      · intro _
        rw [dictGet_dictSet_self]

theorem enrich_fst (commonsStore viewItStore : List (String × CacheEntry)) (now ttl : Int)
    (locations : List PyObj) :
    (enrichLocationsWithImageCounts commonsStore viewItStore now ttl locations).1 =
      locations.map
        (enrichOne
          (commonsCountsForCategories commonsStore now ttl
            ((locations.map enrichCategoryOf).filter (fun c => ¬ c = ""))).1
          (viewItCountsForQids viewItStore now ttl
            ((locations.map enrichQidOf).filter (fun q => ¬ q = ""))).1) := by
  unfold enrichLocationsWithImageCounts
  by_cases h : locations.isEmpty = true
  · rw [if_pos h]
    have hnil : locations = [] := by
      cases locations with
      | nil => rfl
      | cons a l => simp [List.isEmpty] at h
    subst hnil
    rfl
  · rw [if_neg h]

/-- C10: the enrichment returns a list of the same length with elements in the
same positions; non-dict elements are returned unchanged; for dict elements
every key outside the six enrichment keys keeps its original value,
`commons_category` is replaced only by its normalized form (and untouched
when that is empty), and a missing count yields `None` (`vNone`) rather than
`0` — the count value is exactly the cache lookup's result, `vNone` on a
miss; the embedding is pure, so the input list and its dicts are not
mutated. -/
theorem C10_enrichment_frame (commonsStore viewItStore : List (String × CacheEntry))
    (now ttl : Int) (locations : List PyObj) :
    (enrichLocationsWithImageCounts commonsStore viewItStore now ttl locations).1.length =
      locations.length
    ∧ (∀ i v, locations.get? i = some (.nonDict v) →
        (enrichLocationsWithImageCounts commonsStore viewItStore now ttl locations).1.get? i =
          some (.nonDict v))
    ∧ (∀ i d, locations.get? i = some (.dict d) →
        ∃ d',
          (enrichLocationsWithImageCounts commonsStore viewItStore now ttl locations).1.get? i =
            some (.dict d')
          ∧ (∀ k, k ∉ enrichKeys → dictGet d' k = dictGet d k)
          ∧ (¬ enrichCategoryOf (.dict d) = "" →
              dictGet d' "commons_category" = some (.vStr (enrichCategoryOf (.dict d)))
              ∧ dictGet d' "commons_image_count_petscan" =
                some (match
                    countsGet
                      (commonsCountsForCategories commonsStore now ttl
                        ((locations.map enrichCategoryOf).filter (fun c => ¬ c = ""))).1
                      (enrichCategoryOf (.dict d)) with
                  | some n => .vInt n
                  | none => .vNone))
          ∧ (enrichCategoryOf (.dict d) = "" →
              dictGet d' "commons_category" = dictGet d "commons_category")
          ∧ (¬ enrichQidOf (.dict d) = "" →
              dictGet d' "view_it_image_count" =
                some (match
                    countsGet
                      (viewItCountsForQids viewItStore now ttl
                        ((locations.map enrichQidOf).filter (fun q => ¬ q = ""))).1
                      (enrichQidOf (.dict d)) with
                  | some n => .vInt n
                  | none => .vNone))) := by
  rw [enrich_fst commonsStore viewItStore now ttl locations]
  refine ⟨List.length_map _ _, ?_, ?_⟩
  · intro i v hv
    rw [List.get?_map, hv]
    rfl
  · intro i d hd
    rw [List.get?_map, hd]
    obtain ⟨d', hone, hframe, hcat, hcatz, hqid⟩ :=
      enrichOne_dict_spec
        (commonsCountsForCategories commonsStore now ttl
          ((locations.map enrichCategoryOf).filter (fun c => ¬ c = ""))).1
        (viewItCountsForQids viewItStore now ttl
          ((locations.map enrichQidOf).filter (fun q => ¬ q = ""))).1 d
    refine ⟨d', ?_, hframe, hcat, hcatz, hqid⟩
    simp only [Option.map]
    rw [hone]

/-- C10 witness: a one-dict list with a single foreign key keeps that key's
value through enrichment. -/
theorem C10_enrichment_frame_witness :
    ([PyObj.dict [("other", PyVal.vInt 5)]].get? 0 =
        some (.dict [("other", PyVal.vInt 5)]))
    ∧ ("other" ∉ enrichKeys)
    ∧ ∃ d',
        (enrichLocationsWithImageCounts [] [] 0 10 [PyObj.dict [("other", PyVal.vInt 5)]]).1.get?
          0 = some (.dict d')
        ∧ dictGet d' "other" = dictGet [("other", PyVal.vInt 5)] "other" := by
  refine ⟨rfl, by decide, ?_⟩
  obtain ⟨d', hd', hframe, _, _, _⟩ :=
    (C10_enrichment_frame [] [] 0 10 [PyObj.dict [("other", PyVal.vInt 5)]]).2.2 0
      [("other", PyVal.vInt 5)] rfl
  exact ⟨d', hd', hframe "other" (by decide)⟩

/-- C6: the language fallback chain is a deterministic, ordered, de-duplicated
function of the requested tag, the supported set `{en, sv, fi}` and the
default `en` (determinism is inherent in the pure embedding; `Nodup` states
de-duplication); requesting `sv-SE` yields `[sv, en, mul]` and unsupported
`de-DE` yields `[en, mul]`; and for every requested tag the label-service
language list placed in the list query equals the comma-joined chain. -/
theorem C6_language_fallback_chain :
    languageFallbacks (some "sv-SE") true = ["sv", "en", "mul"]
    ∧ languageFallbacks (some "de-DE") true = ["en", "mul"]
    ∧ (∀ (lang : Option String) (includeMul : Bool),
        (languageFallbacks lang includeMul).Nodup)
    ∧ ∀ lang : Option String,
        listQueryLabelLanguages lang = joinComma (languageFallbacks lang true) := by
  refine ⟨by decide, by decide, fun lang includeMul => firstOccurrences_nodup _, ?_⟩
  intro lang
  cases lang with
  | none => decide
  | some l =>
    by_cases hl : l = ""
    · subst hl
      decide
    · simp only [listQueryLabelLanguages, buildQueryLang]
      rw [languageFallbacks_some l hl true, languageFallbacks_some l hl false]
      set n := normalizeLangTag l with hn
      by_cases h1 : n ∈ (["en", "sv", "fi"] : List String)
      · have h1' : n = "en" ∨ n = "sv" ∨ n = "fi" := by simpa using h1
        rcases h1' with h | h | h <;> rw [h] <;> decide
      · by_cases h2 : baseLangOf n ∈ (["en", "sv", "fi"] : List String)
        · have h2' : baseLangOf n = "en" ∨ baseLangOf n = "sv" ∨ baseLangOf n = "fi" := by
            simpa using h2
          simp only [if_neg h1]
          rcases h2' with h | h | h <;> rw [h] <;> decide
        · simp only [if_neg h1, if_neg h2]
          decide

theorem foldl_dedup_acc_mem {α : Type} [DecidableEq α] (l : List α) :
    ∀ (acc : List α) (x : α), x ∈ acc →
      x ∈ l.foldl (fun a c => if c ∈ a then a else a ++ [c]) acc := by
  induction l with
  | nil => exact fun acc x hx => hx
  | cons c l ih =>
    intro acc x hx
    rw [List.foldl_cons]
    by_cases hc : c ∈ acc
    · rw [if_pos hc]
      exact ih acc x hx
    · rw [if_neg hc]
      exact ih _ x (List.mem_append.mpr (Or.inl hx))

theorem foldl_dedup_mem {α : Type} [DecidableEq α] (l : List α) :
    ∀ (acc : List α) (x : α), x ∈ l →
      x ∈ l.foldl (fun a c => if c ∈ a then a else a ++ [c]) acc := by
  induction l with
  | nil => intro acc x hx; cases hx
  | cons c l ih =>
    intro acc x hx
    rw [List.foldl_cons]
    rcases List.mem_cons.mp hx with rfl | hx'
    · by_cases hc : x ∈ acc
      · rw [if_pos hc]
        exact foldl_dedup_acc_mem l acc x hc
      · rw [if_neg hc]
        exact foldl_dedup_acc_mem l _ x (List.mem_append.mpr (Or.inr (List.mem_singleton.mpr rfl)))
    · by_cases hc : c ∈ acc
      · rw [if_pos hc]
        exact ih acc x hx'
      · rw [if_neg hc]
        exact ih _ x hx'

theorem languageFallbacks_ne_nil (lang : Option String) (includeMul : Bool) :
    languageFallbacks lang includeMul ≠ [] := by
  have hen : "en" ∈ languageFallbacks lang includeMul := by
    cases lang with
    | none => cases includeMul <;> decide
    | some l =>
      by_cases hl : l = ""
      · subst hl
        cases includeMul <;> decide
      · rw [languageFallbacks_some l hl includeMul]
        unfold firstOccurrences
        apply foldl_dedup_mem
        simp
  exact List.ne_nil_of_mem hen

theorem runQueryLoop_hs_true (oracle : String → Except String (List Binding)) :
    ∀ (langs : List String) (bs : List Binding) (le : Option String),
      (runQueryLoop oracle langs bs le true).2.2 = true := by
  intro langs
  induction langs with
  | nil => intro bs le; rfl
  | cons l rest ih =>
    intro bs le
    rw [runQueryLoop]
    cases oracle l with
    | error e => exact ih bs (some e)
    | ok newBs =>
      simp only []
      by_cases h : newBs.isEmpty = true
      · rw [if_pos h]
        exact ih newBs le
      · rw [if_neg h]

theorem runQueryLoop_all_fail (oracle : String → Except String (List Binding)) :
    ∀ (langs : List String) (bs : List Binding) (le : Option String) (hs : Bool),
      (∀ l ∈ langs, ∃ e, oracle l = .error e) → langs ≠ [] →
      ∃ lst e, langs.getLast? = some lst ∧ oracle lst = .error e ∧
        runQueryLoop oracle langs bs le hs = (bs, some e, hs) := by
  intro langs
  induction langs with
  | nil => intro bs le hs hall hne; exact absurd rfl hne
  | cons l rest ih =>
    intro bs le hs hall hne
    obtain ⟨e, he⟩ := hall l (List.mem_cons_self l rest)
    cases rest with
    | nil =>
      refine ⟨l, e, rfl, he, ?_⟩
      rw [runQueryLoop, he]
      rfl
    | cons l2 rest2 =>
      obtain ⟨lst, e2, hlst, he2, hloop⟩ :=
        ih bs (some e) hs (fun x hx => hall x (List.mem_cons_of_mem l hx)) (by simp)
      refine ⟨lst, e2, ?_, he2, ?_⟩
      · rw [List.getLast?_cons_cons]
        exact hlst
      · rw [runQueryLoop, he]
        exact hloop

theorem runQueryLoop_some_ok (oracle : String → Except String (List Binding)) :
    ∀ (langs : List String) (bs : List Binding) (le : Option String) (hs : Bool),
      (∃ l ∈ langs, (oracle l).isOk = true) →
      ¬ (runQueryLoop oracle langs bs le hs).1.isEmpty = true ∨
        (runQueryLoop oracle langs bs le hs).2.2 = true := by
  intro langs
  induction langs with
  | nil =>
    intro bs le hs hex
    obtain ⟨l, hl, _⟩ := hex
    cases hl
  | cons l rest ih =>
    intro bs le hs hex
    rw [runQueryLoop]
    cases hol : oracle l with
    | error e =>
      obtain ⟨l', hl', hok⟩ := hex
      rcases List.mem_cons.mp hl' with rfl | hl''
      · rw [hol] at hok
        exact absurd hok (by simp [Except.isOk, Except.toBool])
      · exact ih bs (some e) hs ⟨l', hl'', hok⟩
    | ok newBs =>
      simp only []
      by_cases h : newBs.isEmpty = true
      · rw [if_pos h]
        right
        exact runQueryLoop_hs_true oracle rest newBs le
      · rw [if_neg h]
        left
        exact h

theorem runQueryLoop_all_empty (oracle : String → Except String (List Binding)) :
    ∀ (langs : List String) (le : Option String) (hs : Bool),
      (∀ l ∈ langs, (∃ e, oracle l = .error e) ∨ oracle l = .ok []) →
      (runQueryLoop oracle langs [] le hs).1 = [] := by
  intro langs
  induction langs with
  | nil => intro le hs _; rfl
  | cons l rest ih =>
    intro le hs hall
    rw [runQueryLoop]
    cases hol : oracle l with
    | error e => exact ih (some e) hs (fun x hx => hall x (List.mem_cons_of_mem l hx))
    | ok newBs =>
      have : newBs = [] := by
        rcases hall l (List.mem_cons_self l rest) with ⟨e, he⟩ | hok
        · rw [hol] at he
          cases he
        · rw [hol] at hok
          injection hok
      subst this
      simp only [List.isEmpty_nil, if_pos]
      exact ih le true (fun x hx => hall x (List.mem_cons_of_mem l hx))

theorem fetchLocations_eq_of_loop (oracle : String → Except String (List Binding))
    (lang : Option String) (bs : List Binding) (le : Option String) (hs : Bool)
    (h : runQueryLoop oracle (languageFallbacks lang false) [] none false = (bs, le, hs)) :
    fetchLocations oracle lang =
      if ¬ bs.isEmpty = true then .ok (mergeBindings bs)
      else
        match le, hs with
        | some e, false => .error e
        | _, _ => .ok [] := by
  simp only [fetchLocations, h]
  cases le <;> cases hs <;> rfl

theorem fetchLocationDetail_eq_of_loop (oracle : String → Except String (List Binding))
    (lang : Option String) (bs : List Binding) (le : Option String) (hs : Bool)
    (h : runQueryLoop oracle (languageFallbacks lang false) [] none false = (bs, le, hs)) :
    fetchLocationDetail oracle lang =
      if ¬ bs.isEmpty = true then
        match groupByUri bs with
        | [] => .ok none
        | g :: _ => .ok (some (applyArchitectValues g.2.1 g.2.2))
      else
        match le, hs with
        | some e, false => .error e
        | _, _ => .ok none := by
  simp only [fetchLocationDetail, h]
  cases le <;> cases hs <;> rfl

theorem fetchLocationChildren_eq_of_loop (oracle : String → Except String (List Binding))
    (lang : Option String) (bs : List Binding) (le : Option String) (hs : Bool)
    (h : runQueryLoop oracle (languageFallbacks lang false) [] none false = (bs, le, hs)) :
    fetchLocationChildren oracle lang =
      if ¬ bs.isEmpty = true then .ok (mergeChildren bs)
      else
        match le, hs with
        | some e, false => .error e
        | _, _ => .ok [] := by
  simp only [fetchLocationChildren, h]
  cases le <;> cases hs <;> rfl

/-- C7: the fallback query loops of `fetch_locations`, `fetch_location_detail`
and `fetch_location_children` raise the last `SPARQLServiceError` exactly when
the attempt for every language in the fallback chain fails: when all attempts
fail, the surfaced error is the last language's error; when any attempt
returns without error the overall call returns without error; and when every
attempt either fails or returns zero rows, with at least one zero-row
success, the overall result is the non-error outcome (`[]` for the list and
children fetches, `none` for the detail fetch) even though other attempts
failed. -/
theorem C7_fallback_error_surfacing
    (oracleL oracleD oracleC : String → Except String (List Binding))
    (lang : Option String) :
    ((∀ l ∈ languageFallbacks lang false, ∃ e, oracleL l = .error e) →
      ∃ lst e, (languageFallbacks lang false).getLast? = some lst ∧
        oracleL lst = .error e ∧ fetchLocations oracleL lang = .error e)
    ∧ ((∃ l ∈ languageFallbacks lang false, (oracleL l).isOk = true) →
        (fetchLocations oracleL lang).isOk = true)
    ∧ ((∀ l ∈ languageFallbacks lang false, (∃ e, oracleL l = .error e) ∨ oracleL l = .ok []) →
        (∃ l ∈ languageFallbacks lang false, (oracleL l).isOk = true) →
        fetchLocations oracleL lang = .ok [])
    ∧ ((∀ l ∈ languageFallbacks lang false, ∃ e, oracleD l = .error e) →
      ∃ lst e, (languageFallbacks lang false).getLast? = some lst ∧
        oracleD lst = .error e ∧ fetchLocationDetail oracleD lang = .error e)
    ∧ ((∃ l ∈ languageFallbacks lang false, (oracleD l).isOk = true) →
        (fetchLocationDetail oracleD lang).isOk = true)
    ∧ ((∀ l ∈ languageFallbacks lang false, (∃ e, oracleD l = .error e) ∨ oracleD l = .ok []) →
        (∃ l ∈ languageFallbacks lang false, (oracleD l).isOk = true) →
        fetchLocationDetail oracleD lang = .ok none)
    ∧ ((∀ l ∈ languageFallbacks lang false, ∃ e, oracleC l = .error e) →
      ∃ lst e, (languageFallbacks lang false).getLast? = some lst ∧
        oracleC lst = .error e ∧ fetchLocationChildren oracleC lang = .error e)
    ∧ ((∃ l ∈ languageFallbacks lang false, (oracleC l).isOk = true) →
        (fetchLocationChildren oracleC lang).isOk = true)
    ∧ ((∀ l ∈ languageFallbacks lang false, (∃ e, oracleC l = .error e) ∨ oracleC l = .ok []) →
        (∃ l ∈ languageFallbacks lang false, (oracleC l).isOk = true) →
        fetchLocationChildren oracleC lang = .ok []) := by
  refine ⟨?_, ?_, ?_, ?_, ?_, ?_, ?_, ?_, ?_⟩
  · intro hall
    obtain ⟨lst, e, hlst, he, hloop⟩ :=
      runQueryLoop_all_fail oracleL (languageFallbacks lang false) [] none false hall
        (languageFallbacks_ne_nil lang false)
    refine ⟨lst, e, hlst, he, ?_⟩
    rw [fetchLocations_eq_of_loop oracleL lang [] (some e) false hloop]
    rfl
  · intro hex
    have h := runQueryLoop_some_ok oracleL (languageFallbacks lang false) [] none false hex
    rcases hr : runQueryLoop oracleL (languageFallbacks lang false) [] none false with
      ⟨bs', le', hs'⟩
    rw [hr] at h
    rw [fetchLocations_eq_of_loop oracleL lang bs' le' hs' hr]
    rcases h with h | h
    · rw [if_pos h]
      rfl
    · have hhs : hs' = true := h
      subst hhs
      by_cases hb : bs'.isEmpty = true
      · rw [if_neg (not_not_intro hb)]
        cases le' <;> rfl
      · rw [if_pos hb]
        rfl
  · intro hall hex
    have hempty := runQueryLoop_all_empty oracleL (languageFallbacks lang false) none false hall
    have h := runQueryLoop_some_ok oracleL (languageFallbacks lang false) [] none false hex
    rcases hr : runQueryLoop oracleL (languageFallbacks lang false) [] none false with
      ⟨bs', le', hs'⟩
    rw [hr] at hempty h
    have hbs : bs' = [] := hempty
    subst hbs
    have hhs : hs' = true := by
      rcases h with h | h
      · exact absurd rfl h
      · exact h
    subst hhs
    rw [fetchLocations_eq_of_loop oracleL lang [] le' true hr]
    cases le' <;> rfl
  · intro hall
    obtain ⟨lst, e, hlst, he, hloop⟩ :=
      runQueryLoop_all_fail oracleD (languageFallbacks lang false) [] none false hall
        (languageFallbacks_ne_nil lang false)
    refine ⟨lst, e, hlst, he, ?_⟩
    rw [fetchLocationDetail_eq_of_loop oracleD lang [] (some e) false hloop]
    rfl
  · intro hex
    have h := runQueryLoop_some_ok oracleD (languageFallbacks lang false) [] none false hex
    rcases hr : runQueryLoop oracleD (languageFallbacks lang false) [] none false with
      ⟨bs', le', hs'⟩
    rw [hr] at h
    rw [fetchLocationDetail_eq_of_loop oracleD lang bs' le' hs' hr]
    rcases h with h | h
    · rw [if_pos h]
      cases groupByUri bs' <;> rfl
    · have hhs : hs' = true := h
      subst hhs
      by_cases hb : bs'.isEmpty = true
      · rw [if_neg (not_not_intro hb)]
        cases le' <;> rfl
      · rw [if_pos hb]
        cases groupByUri bs' <;> rfl
  · intro hall hex
    have hempty := runQueryLoop_all_empty oracleD (languageFallbacks lang false) none false hall
    have h := runQueryLoop_some_ok oracleD (languageFallbacks lang false) [] none false hex
    rcases hr : runQueryLoop oracleD (languageFallbacks lang false) [] none false with
      ⟨bs', le', hs'⟩
    rw [hr] at hempty h
    have hbs : bs' = [] := hempty
    subst hbs
    have hhs : hs' = true := by
      rcases h with h | h
      · exact absurd rfl h
      · exact h
    subst hhs
    rw [fetchLocationDetail_eq_of_loop oracleD lang [] le' true hr]
    cases le' <;> rfl
  · intro hall
    obtain ⟨lst, e, hlst, he, hloop⟩ :=
      runQueryLoop_all_fail oracleC (languageFallbacks lang false) [] none false hall
        (languageFallbacks_ne_nil lang false)
    refine ⟨lst, e, hlst, he, ?_⟩
    rw [fetchLocationChildren_eq_of_loop oracleC lang [] (some e) false hloop]
    rfl
  · intro hex
    have h := runQueryLoop_some_ok oracleC (languageFallbacks lang false) [] none false hex
    rcases hr : runQueryLoop oracleC (languageFallbacks lang false) [] none false with
      ⟨bs', le', hs'⟩
    rw [hr] at h
    rw [fetchLocationChildren_eq_of_loop oracleC lang bs' le' hs' hr]
    rcases h with h | h
    · rw [if_pos h]
      rfl
    · have hhs : hs' = true := h
      subst hhs
      by_cases hb : bs'.isEmpty = true
      · rw [if_neg (not_not_intro hb)]
        cases le' <;> rfl
      · rw [if_pos hb]
        rfl
  · intro hall hex
    have hempty := runQueryLoop_all_empty oracleC (languageFallbacks lang false) none false hall
    have h := runQueryLoop_some_ok oracleC (languageFallbacks lang false) [] none false hex
    rcases hr : runQueryLoop oracleC (languageFallbacks lang false) [] none false with
      ⟨bs', le', hs'⟩
    rw [hr] at hempty h
    have hbs : bs' = [] := hempty
    subst hbs
    have hhs : hs' = true := by
      rcases h with h | h
      · exact absurd rfl h
      · exact h
    subst hhs
    rw [fetchLocationChildren_eq_of_loop oracleC lang [] le' true hr]
    cases le' <;> rfl

/-- C7 witness: with an oracle failing on every language, the list fetch
surfaces the error and the children fetch surfaces it too; with an all-empty
oracle, both return the empty list. -/
theorem C7_fallback_error_surfacing_witness :
    (fetchLocations (fun _ => (.error "E" : Except String (List Binding))) none = .error "E"
      ∧ fetchLocations (fun _ => (.ok [] : Except String (List Binding))) none = .ok [])
    ∧ fetchLocationChildren (fun _ => (.error "E" : Except String (List Binding))) none =
        .error "E"
    ∧ fetchLocationChildren (fun _ => (.ok [] : Except String (List Binding))) none =
        .ok [] := by
  refine ⟨⟨?_, ?_⟩, ?_, ?_⟩
  · obtain ⟨lst, e, hlst, he, hres⟩ :=
      (C7_fallback_error_surfacing (fun _ => .error "E") (fun _ => .error "E")
        (fun _ => .error "E") none).1 (fun l hl => ⟨"E", rfl⟩)
    have he' : "E" = e := by injection he
    rw [← he'] at hres
    exact hres
  · exact (C7_fallback_error_surfacing (fun _ => .ok []) (fun _ => .ok [])
      (fun _ => .ok []) none).2.2.1 (fun l hl => Or.inr rfl) ⟨"en", by decide, rfl⟩
  · obtain ⟨lst, e, hlst, he, hres⟩ :=
      (C7_fallback_error_surfacing (fun _ => .error "E") (fun _ => .error "E")
        (fun _ => .error "E") none).2.2.2.2.2.2.1 (fun l hl => ⟨"E", rfl⟩)
    have he' : "E" = e := by injection he
    rw [← he'] at hres
    exact hres
  · exact (C7_fallback_error_surfacing (fun _ => .ok []) (fun _ => .ok [])
      (fun _ => .ok []) none).2.2.2.2.2.2.2.2 (fun l hl => Or.inr rfl) ⟨"en", by decide, rfl⟩

/-- C1: over every interleaving of enrichment-triggered submissions and job
completions, at most one recomputation job per key is outstanding (its
multiplicity in `outstanding` is ≤ 1); every pending key has either a
submission in flight or an outstanding job (whose `submitFail`/`complete`
event removes it, so no key is left permanently pending); and completing a
key's job removes it from both the pending set and the outstanding jobs. -/
theorem C1_pending_refresh_protocol (evs : List RefreshEvent) :
    (∀ k, (runRefresh evs).outstanding.count k ≤ 1)
    ∧ (∀ k, k ∈ (runRefresh evs).pending →
        k ∈ (runRefresh evs).inflightSubmit ∨ k ∈ (runRefresh evs).outstanding)
    ∧ (∀ k, k ∈ (runRefresh evs).outstanding →
        k ∉ (refreshStep (runRefresh evs) (.complete k)).pending
        ∧ k ∉ (refreshStep (runRefresh evs) (.complete k)).outstanding) := by
  have hinv := refreshInv_run evs
  refine ⟨?_, ?_, ?_⟩
  · exact fun k => List.nodup_iff_count_le_one.mp hinv.outstandingNodup k
  · exact fun k hk => (hinv.pendingIff k).mp hk
  · intro k hk
    have hstep : refreshStep (runRefresh evs) (.complete k) =
        ⟨(runRefresh evs).pending.erase k, (runRefresh evs).inflightSubmit,
          (runRefresh evs).outstanding.erase k⟩ := by
      simp [refreshStep, hk]
    rw [hstep]
    exact ⟨fun hmem => (hinv.pendingNodup.mem_erase_iff.mp hmem).1 rfl,
      fun hmem => (hinv.outstandingNodup.mem_erase_iff.mp hmem).1 rfl⟩

/-- C1 witness: after an accepted submission for key `a`, the job is
outstanding and completing it clears both sets. -/
theorem C1_pending_refresh_protocol_witness :
    ("a" ∈ (runRefresh [.beginSubmit "a", .submitOk "a"]).outstanding)
    ∧ ("a" ∉ (refreshStep (runRefresh [.beginSubmit "a", .submitOk "a"])
          (.complete "a")).pending
      ∧ "a" ∉ (refreshStep (runRefresh [.beginSubmit "a", .submitOk "a"])
          (.complete "a")).outstanding) :=
  ⟨by decide,
    (C1_pending_refresh_protocol [.beginSubmit "a", .submitOk "a"]).2.2 "a" (by decide)⟩

/-- C9: when the metric recomputation's external fetch fails, the refresh job
returns with the persistent cache untouched (prior rows keep count and
timestamp, no row is created), and the job itself surfaces no error; on
success the key's row is upserted with the fetched count and a fresh
timestamp, leaving all other keys' rows unchanged. -/
theorem C9_refresh_failure_leaves_cache (now : Int) (store : List (String × CacheEntry))
    (key : String) :
    (∀ e, refreshCommonsImageCount (.error e) now store key = store
      ∧ refreshViewItImageCount (.error e) now store key = store)
    ∧ (∀ c, alistLookup key (refreshCommonsImageCount (.ok c) now store key)
          = some ⟨c, some now⟩
        ∧ alistLookup key (refreshViewItImageCount (.ok c) now store key) = some ⟨c, some now⟩
        ∧ (∀ k, ¬ k = key →
            alistLookup k (refreshCommonsImageCount (.ok c) now store key) = alistLookup k store
            ∧ alistLookup k (refreshViewItImageCount (.ok c) now store key)
              = alistLookup k store)) := by
  refine ⟨fun e => ⟨rfl, rfl⟩, fun c => ⟨?_, ?_, fun k hk => ⟨?_, ?_⟩⟩⟩
  · exact alistLookup_updateOrCreate_self store key ⟨c, some now⟩
  · exact alistLookup_updateOrCreate_self store key ⟨c, some now⟩
  · exact alistLookup_updateOrCreate_other store key k ⟨c, some now⟩ hk
  · exact alistLookup_updateOrCreate_other store key k ⟨c, some now⟩ hk

/-- C9 witness: concrete failing and succeeding refresh over a one-row store. -/
theorem C9_refresh_failure_leaves_cache_witness :
    refreshCommonsImageCount (.error "boom") 5 [("other", ⟨1, some 2⟩)] "k"
        = [("other", ⟨1, some 2⟩)]
    ∧ (¬ "other" = "k"
      ∧ alistLookup "other" (refreshCommonsImageCount (.ok 7) 5 [("other", ⟨1, some 2⟩)] "k")
          = alistLookup "other" [("other", ⟨1, some 2⟩)]) :=
  ⟨((C9_refresh_failure_leaves_cache 5 [("other", ⟨1, some 2⟩)] "k").1 "boom").1,
    by decide,
    (((C9_refresh_failure_leaves_cache 5 [("other", ⟨1, some 2⟩)] "k").2 7).2.2 "other"
      (by decide)).1⟩

/-! ### Claim theorems: C3 and C8 -/

/-- C3 counterexample: the claim states the freshness predicate fails for
lookups at `t ≥ t0 + T`, but the code tests `fetched_at >= now - TTL`, which
is still fresh at `t = t0 + T` exactly (here `t0 = 0`, `T = 10`, `t = 10`). -/
theorem C3_counterexample :
    ¬ (∀ (count t0 ttl t : Int), 0 < ttl → t0 + ttl ≤ t →
        cachedKeyIsFresh (some ⟨count, some t0⟩) ttl t = false) := by
  intro h
  exact absurd (h 0 0 10 10 (by decide) (by decide)) (by decide)

/-- C3 (amended): a cache entry fetched at `t0` with positive TTL `T` is fresh
for lookups at `t ≤ t0 + T` and stale at `t > t0 + T`; a non-positive TTL
makes every existing entry always fresh; a key with no entry is never fresh. -/
theorem C3_cache_freshness (count t0 ttl t : Int) :
    (0 < ttl → (cachedKeyIsFresh (some ⟨count, some t0⟩) ttl t = true ↔ t ≤ t0 + ttl))
    ∧ (ttl ≤ 0 → cachedKeyIsFresh (some ⟨count, some t0⟩) ttl t = true)
    ∧ cachedKeyIsFresh none ttl t = false := by
  refine ⟨fun hpos => ?_, fun hnonpos => ?_, rfl⟩
  · simp only [cachedKeyIsFresh, isCacheEntryFresh, imageCountCacheCutoff,
      imageCountCacheTtlSeconds, if_pos hpos]
    rw [if_neg (by omega)]
    simp only [ge_iff_le, decide_eq_true_eq]
    omega
  · have h1 : ¬ (ttl > 0) := by omega
    simp [cachedKeyIsFresh, isCacheEntryFresh, imageCountCacheCutoff,
      imageCountCacheTtlSeconds, h1]

/-- C3 witness: concrete instance of the amended freshness theorem
(`T = 10`, `t0 = 100`, lookup at `t = 105`). -/
theorem C3_cache_freshness_witness :
    (0:Int) < 10 ∧ cachedKeyIsFresh (some ⟨3, some 100⟩) 10 105 = true :=
  ⟨by decide, ((C3_cache_freshness 3 100 10 105).1 (by decide)).mpr (by decide)⟩

/-- C8: `_wikidata_time_datavalue` maps a (stripped) `YYYY` input with year ≥ 1
to precision 9, a valid `YYYY-MM` to precision 10 and a valid `YYYY-MM-DD` to
precision 11 (`timeInputPrecision` classifies exactly these shapes), always
carrying the fixed Q1985727 calendar model, and raises `WikidataWriteError`
(modelled as `Except.error`) on every other input — empty string, year below 1,
invalid month or day, or any other format. -/
theorem C8_time_datavalue_encoding (s : String) :
    match wikidataTimeDatavalue s with
    | .ok dv => timeInputPrecision (pyStrip s) = some dv.precision ∧
        dv.calendarmodel = wikidataCalendarModel
    | .error _ => timeInputPrecision (pyStrip s) = none :=
  timeDatavalueN_spec (pyStrip s)

/-- C2: write idempotence of `ensure_wikidata_collection_membership`. With a
valid entity id, a canonical collection QID, canonical-or-absent publisher and
language-of-work QIDs, an empty or valid publication date, and a non-blank
fresh statement id, (1) starting from an entity state with no matching P5008
claim, a call performs exactly one claim creation and `a ≤ 1` reference
attachments (one exactly when the source URL is non-blank), and a second
identical call — regardless of its fresh id and date — returns the state
unchanged with zero creations and zero attachments; (2) when a claim already
links the entity to the collection and one of its references already cites the
same source URL together with the publisher and language-of-work ids, nothing
is created or attached and the state is unchanged; (3) when the listed claim
has no such matching reference and the source URL is non-blank, no claim is
created and exactly one reference is attached to that claim. -/
theorem C2_write_idempotence
    (freshId freshId2 : String) (today today2 : TimeDataValue) (st stL : EntityClaims)
    (entityId c settingsC url title titleLang author pubdate p1433 p407 reason : String)
    (claim0 : ClaimRec)
    (hent : ¬ extractWikidataQid entityId = "")
    (hc0 : ¬ c = "")
    (hcan : CanonicalQid c)
    (h1433 : extractWikidataQid (pyStrip p1433) = "" ∨ CanonicalQid (pyStrip p1433))
    (h407 : extractWikidataQid (pyStrip p407) = "" ∨ CanonicalQid (pyStrip p407))
    (hpub : pyStrip pubdate = "" ∨ ∃ dv, wikidataTimeDatavalue (pyStrip pubdate) = .ok dv)
    (hfresh : ¬ pyStrip freshId = "")
    (hinit : entityItemClaims st "P5008" (extractWikidataQid c) = [])
    (hlisted : entityItemClaims stL "P5008" (extractWikidataQid c) = [claim0])
    (hid0 : ¬ pyStrip claim0.id = "") :
    (∃ st1 a,
      ensureWikidataCollectionMembership freshId today st entityId (some c) settingsC url
          title titleLang author pubdate p1433 p407 reason = .ok (st1, 1, a, false) ∧
        a ≤ 1 ∧ (a = 1 ↔ ¬ pyStrip url = "") ∧
        ensureWikidataCollectionMembership freshId2 today2 st1 entityId (some c) settingsC
          url title titleLang author pubdate p1433 p407 reason = .ok (st1, 0, 0, true)) ∧
    (claimHasMatchingSourceReference claim0 (pyStrip url)
        (extractWikidataQid (pyStrip p1433)) (extractWikidataQid (pyStrip p407)) = true →
      ensureWikidataCollectionMembership freshId2 today2 stL entityId (some c) settingsC
        url title titleLang author pubdate p1433 p407 reason = .ok (stL, 0, 0, true)) ∧
    (¬ pyStrip url = "" →
      claimHasMatchingSourceReference claim0 (pyStrip url)
          (extractWikidataQid (pyStrip p1433)) (extractWikidataQid (pyStrip p407)) = false →
      ∃ snaks,
        ensureWikidataCollectionMembership freshId2 today2 stL entityId (some c) settingsC
            url title titleLang author pubdate p1433 p407 reason =
          .ok (setReference stL (pyStrip claim0.id) snaks, 0, 1, true)) := by
  have hCne : ¬ extractWikidataQid c = "" := canonical_ne_empty hcan
  have hCfix : extractWikidataQid (extractWikidataQid c) = extractWikidataQid c :=
    canonical_extract_self hcan
  have heid : entityIdFromClaimValue
      (.sEntity none (some (natOfDigits ((extractWikidataQid c).data.drop 1) : Int))) =
      extractWikidataQid c := by
    rw [entityId_of_written]
    exact canonical_round_trip hcan
  have hmatches : claimMatchesTarget (extractWikidataQid c)
      ⟨pyStrip freshId, some (.sEntity none
        (some (natOfDigits ((extractWikidataQid c).data.drop 1) : Int))), [], []⟩ = true := by
    have heidT : entityIdFromClaimValue (.sEntity none
        (some (natOfDigits ((extractWikidataQid c).data.tail) : Int))) =
        extractWikidataQid c := by
      rw [← List.drop_one]
      exact heid
    simp only [claimMatchesTarget]
    simp [heidT, hCne]
  have hfixP : extractWikidataQid (extractWikidataQid (pyStrip p1433)) =
      extractWikidataQid (pyStrip p1433) := by
    rcases h1433 with h | h
    · rw [h]; rfl
    · exact canonical_extract_self h
  have hfixL : extractWikidataQid (extractWikidataQid (pyStrip p407)) =
      extractWikidataQid (pyStrip p407) := by
    rcases h407 with h | h
    · rw [h]; rfl
    · exact canonical_extract_self h
  refine ⟨?_, ?_, ?_⟩
  · -- part 1: fresh state, two calls
    by_cases hurl : pyStrip url = ""
    · -- no source URL: creation without reference
      have hsnaks : wikidataSourceSnaks today (pyStrip url) (pyStrip title)
          (pyStrip titleLang) (pyStrip author) (pyStrip pubdate)
          (extractWikidataQid (pyStrip p1433)) (extractWikidataQid (pyStrip p407)) =
          .ok [] := by
        simp only [wikidataSourceSnaks]
        rw [pyStrip_idem url, if_pos hurl]
      have hcreate : createWikidataClaim freshId today st "P5008"
          (.sEntity none (some (natOfDigits ((extractWikidataQid c).data.drop 1) : Int)))
          (pyStrip url) (pyStrip title) (pyStrip titleLang) (pyStrip author) (pyStrip pubdate)
          (extractWikidataQid (pyStrip p1433)) (extractWikidataQid (pyStrip p407))
          [("P958", some (.sStr (pyStrip reason)))] =
          .ok (qualifiersFold (pyStrip freshId) [("P958", some (.sStr (pyStrip reason)))]
              (addClaim st "P5008" ⟨pyStrip freshId, some (.sEntity none
                (some (natOfDigits ((extractWikidataQid c).data.drop 1) : Int))), [], []⟩),
            pyStrip freshId, 0) :=
        createWikidataClaim_eq freshId today st "P5008" _ (pyStrip url) (pyStrip title)
          (pyStrip titleLang) (pyStrip author) (pyStrip pubdate)
          (extractWikidataQid (pyStrip p1433)) (extractWikidataQid (pyStrip p407))
          [("P958", some (.sStr (pyStrip reason)))] [] hfresh hsnaks
      have hens1 := ensure_eq_create freshId today st entityId c settingsC url title
        titleLang author pubdate p1433 p407 reason _ _ _ hent hc0 hCne hCfix hinit hcreate
      have hadd : entityItemClaims (addClaim st "P5008" ⟨pyStrip freshId, some (.sEntity none
          (some (natOfDigits ((extractWikidataQid c).data.drop 1) : Int))), [], []⟩)
          "P5008" (extractWikidataQid c) = [⟨pyStrip freshId, some (.sEntity none
          (some (natOfDigits ((extractWikidataQid c).data.drop 1) : Int))), [], []⟩] :=
        entityItemClaims_addClaim st "P5008" (extractWikidataQid c) _ hCfix hCne hmatches
          hinit
      obtain ⟨u2, hu2, hfold⟩ := entityItemClaims_qualifiersFold (pyStrip freshId)
        [("P958", some (.sStr (pyStrip reason)))] "P5008" (extractWikidataQid c)
        (addClaim st "P5008" ⟨pyStrip freshId, some (.sEntity none
          (some (natOfDigits ((extractWikidataQid c).data.drop 1) : Int))), [], []⟩)
      rw [hadd] at hfold
      simp only [List.map_cons, List.map_nil] at hfold
      have hens2 := ensure_eq_listed_noUrl freshId2 today2 _ entityId c settingsC url title
        titleLang author pubdate p1433 p407 reason _ hent hc0 hCne hfold rfl hurl
      exact ⟨_, 0, hens1, by decide, by simp [hurl], hens2⟩
    · -- non-empty source URL: creation plus one reference attachment
      obtain ⟨snaks, hsnaks, hnemp, h854, hpin, hlow⟩ := sourceSnaks_spec today url title
        titleLang author pubdate p1433 p407 hurl hpub h1433 h407
      have hcreate0 := createWikidataClaim_eq freshId today st "P5008"
        (.sEntity none (some (natOfDigits ((extractWikidataQid c).data.drop 1) : Int)))
        (pyStrip url) (pyStrip title) (pyStrip titleLang) (pyStrip author) (pyStrip pubdate)
        (extractWikidataQid (pyStrip p1433)) (extractWikidataQid (pyStrip p407))
        [("P958", some (.sStr (pyStrip reason)))] snaks hfresh hsnaks
      rw [hnemp] at hcreate0
      have hcreate : createWikidataClaim freshId today st "P5008"
          (.sEntity none (some (natOfDigits ((extractWikidataQid c).data.drop 1) : Int)))
          (pyStrip url) (pyStrip title) (pyStrip titleLang) (pyStrip author) (pyStrip pubdate)
          (extractWikidataQid (pyStrip p1433)) (extractWikidataQid (pyStrip p407))
          [("P958", some (.sStr (pyStrip reason)))] =
          .ok (qualifiersFold (pyStrip freshId) [("P958", some (.sStr (pyStrip reason)))]
              (setReference (addClaim st "P5008" ⟨pyStrip freshId, some (.sEntity none
                  (some (natOfDigits ((extractWikidataQid c).data.drop 1) : Int))), [], []⟩)
                (pyStrip freshId) snaks),
            pyStrip freshId, 1) := hcreate0
      have hens1 := ensure_eq_create freshId today st entityId c settingsC url title
        titleLang author pubdate p1433 p407 reason _ _ _ hent hc0 hCne hCfix hinit hcreate
      have hadd : entityItemClaims (addClaim st "P5008" ⟨pyStrip freshId, some (.sEntity none
          (some (natOfDigits ((extractWikidataQid c).data.drop 1) : Int))), [], []⟩)
          "P5008" (extractWikidataQid c) = [⟨pyStrip freshId, some (.sEntity none
          (some (natOfDigits ((extractWikidataQid c).data.drop 1) : Int))), [], []⟩] :=
        entityItemClaims_addClaim st "P5008" (extractWikidataQid c) _ hCfix hCne hmatches
          hinit
      have hsetref : entityItemClaims (setReference (addClaim st "P5008"
          ⟨pyStrip freshId, some (.sEntity none
            (some (natOfDigits ((extractWikidataQid c).data.drop 1) : Int))), [], []⟩)
          (pyStrip freshId) snaks) "P5008" (extractWikidataQid c) =
          [⟨pyStrip freshId, some (.sEntity none
            (some (natOfDigits ((extractWikidataQid c).data.drop 1) : Int))), [snaks], []⟩] := by
        unfold setReference
        rw [entityItemClaims_mapClaims _ (refUpd_mainsnak (pyStrip freshId) snaks) _ _ _,
          hadd]
        simp only [List.map_cons, List.map_nil]
        have hrepl : refUpd (pyStrip freshId) snaks ⟨pyStrip freshId, some (.sEntity none
            (some (natOfDigits ((extractWikidataQid c).data.drop 1) : Int))), [], []⟩ =
            ⟨pyStrip freshId, some (.sEntity none
            (some (natOfDigits ((extractWikidataQid c).data.drop 1) : Int))), [snaks], []⟩ := by
          unfold refUpd
          rw [if_pos rfl]
          rfl
        rw [hrepl]
      obtain ⟨u2, hu2, hfold⟩ := entityItemClaims_qualifiersFold (pyStrip freshId)
        [("P958", some (.sStr (pyStrip reason)))] "P5008" (extractWikidataQid c)
        (setReference (addClaim st "P5008" ⟨pyStrip freshId, some (.sEntity none
          (some (natOfDigits ((extractWikidataQid c).data.drop 1) : Int))), [], []⟩)
          (pyStrip freshId) snaks)
      rw [hsetref] at hfold
      simp only [List.map_cons, List.map_nil] at hfold
      have hidv : (u2 ⟨pyStrip freshId, some (.sEntity none
          (some (natOfDigits ((extractWikidataQid c).data.drop 1) : Int))), [snaks], []⟩).id =
          pyStrip freshId := (hu2 _).2.1
      have hid2 : ¬ pyStrip (u2 ⟨pyStrip freshId, some (.sEntity none
          (some (natOfDigits ((extractWikidataQid c).data.drop 1) : Int))), [snaks], []⟩).id =
          "" := by
        rw [hidv, pyStrip_idem]
        exact hfresh

      have hpin2 : ¬ extractWikidataQid (extractWikidataQid (pyStrip p1433)) = "" →
          ∃ vs, snaksGet snaks "P1433" = some vs ∧ ∃ v ∈ vs, entityIdFromClaimValue v =
            extractWikidataQid (extractWikidataQid (pyStrip p1433)) := by
        rw [hfixP]
        exact hpin
      have hlow2 : ¬ extractWikidataQid (extractWikidataQid (pyStrip p407)) = "" →
          ∃ vs, snaksGet snaks "P407" = some vs ∧ ∃ v ∈ vs, entityIdFromClaimValue v =
            extractWikidataQid (extractWikidataQid (pyStrip p407)) := by
        rw [hfixL]
        exact hlow
      have hhas : claimHasMatchingSourceReference (u2 ⟨pyStrip freshId, some (.sEntity none
          (some (natOfDigits ((extractWikidataQid c).data.drop 1) : Int))), [snaks], []⟩)
          (pyStrip url) (extractWikidataQid (pyStrip p1433))
          (extractWikidataQid (pyStrip p407)) = true := by
        refine claimHas_of_written _ snaks _ _ _ hurl (pyStrip_idem url) ?_ h854 hpin2 hlow2
        rw [(hu2 _).2.2]
        exact List.mem_singleton_self _
      have hloop := (attachRefsLoop_skip today2 (qualifiersFold (pyStrip freshId)
          [("P958", some (.sStr (pyStrip reason)))]
          (setReference (addClaim st "P5008" ⟨pyStrip freshId, some (.sEntity none
            (some (natOfDigits ((extractWikidataQid c).data.drop 1) : Int))), [], []⟩)
            (pyStrip freshId) snaks))
        (u2 ⟨pyStrip freshId, some (.sEntity none
          (some (natOfDigits ((extractWikidataQid c).data.drop 1) : Int))), [snaks], []⟩) []
        (pyStrip url) (pyStrip title) (pyStrip titleLang) (pyStrip author) (pyStrip pubdate)
        (extractWikidataQid (pyStrip p1433)) (extractWikidataQid (pyStrip p407)) 0
        hid2 hhas).trans (attachRefsLoop_nil today2 _ (pyStrip url) (pyStrip title)
          (pyStrip titleLang) (pyStrip author) (pyStrip pubdate)
          (extractWikidataQid (pyStrip p1433)) (extractWikidataQid (pyStrip p407)) 0)
      have hens2 := ensure_eq_listed_attach freshId2 today2 _ entityId c settingsC url title
        titleLang author pubdate p1433 p407 reason _ _ _ hent hc0 hCne hfold rfl hurl hloop
      exact ⟨_, 1, hens1, by decide, by simp [hurl], hens2⟩
  · -- part 2: already listed with a matching reference: complete no-op
    intro hhas
    by_cases hurl : pyStrip url = ""
    · rw [claimHas_empty_url claim0 (pyStrip url) (extractWikidataQid (pyStrip p1433))
        (extractWikidataQid (pyStrip p407)) (by rw [pyStrip_idem]; exact hurl)] at hhas
      exact absurd hhas Bool.false_ne_true
    · have hloop := (attachRefsLoop_skip today2 stL claim0 [] (pyStrip url) (pyStrip title)
        (pyStrip titleLang) (pyStrip author) (pyStrip pubdate)
        (extractWikidataQid (pyStrip p1433)) (extractWikidataQid (pyStrip p407)) 0
        hid0 hhas).trans (attachRefsLoop_nil today2 stL (pyStrip url) (pyStrip title)
          (pyStrip titleLang) (pyStrip author) (pyStrip pubdate)
          (extractWikidataQid (pyStrip p1433)) (extractWikidataQid (pyStrip p407)) 0)
      exact ensure_eq_listed_attach freshId2 today2 stL entityId c settingsC url title
        titleLang author pubdate p1433 p407 reason [claim0] stL 0 hent hc0 hCne hlisted rfl
        hurl hloop
  · -- part 3: already listed without a matching reference: one attachment
    intro hurl hno
    obtain ⟨snaks, hsnaks, hnemp, h854, hpin, hlow⟩ := sourceSnaks_spec today2 url title
      titleLang author pubdate p1433 p407 hurl hpub h1433 h407
    refine ⟨snaks, ?_⟩
    have hloop := (attachRefsLoop_attach today2 stL claim0 [] (pyStrip url) (pyStrip title)
      (pyStrip titleLang) (pyStrip author) (pyStrip pubdate)
      (extractWikidataQid (pyStrip p1433)) (extractWikidataQid (pyStrip p407)) 0 snaks
      hid0 hno hsnaks hnemp).trans (attachRefsLoop_nil today2
        (setReference stL (pyStrip claim0.id) snaks) (pyStrip url) (pyStrip title)
        (pyStrip titleLang) (pyStrip author) (pyStrip pubdate)
        (extractWikidataQid (pyStrip p1433)) (extractWikidataQid (pyStrip p407)) 1)
    exact ensure_eq_listed_attach freshId2 today2 stL entityId c settingsC url title
      titleLang author pubdate p1433 p407 reason [claim0]
      (setReference stL (pyStrip claim0.id) snaks) 1 hent hc0 hCne hlisted rfl hurl hloop

/-- C2 witness: concrete two-call run from an empty entity state with entity
`Q1`, collection `Q2`, fresh ids `ID1`/`ID2` and source URL `" http://x "`:
the first call creates one claim with one reference attachment, the second
returns the same state with zero creations and attachments. -/
theorem C2_write_idempotence_witness :
    ∃ st1 a,
      ensureWikidataCollectionMembership "ID1"
          ⟨"+2026-01-01T00:00:00Z", 0, 0, 0, 11, wikidataCalendarModel⟩ [] "Q1" (some "Q2")
          "" " http://x " "" "" "" "" "" "" "" = .ok (st1, 1, a, false) ∧
        a ≤ 1 ∧ (a = 1 ↔ ¬ pyStrip " http://x " = "") ∧
        ensureWikidataCollectionMembership "ID2"
          ⟨"+2026-02-02T00:00:00Z", 0, 0, 0, 11, wikidataCalendarModel⟩ st1 "Q1" (some "Q2")
          "" " http://x " "" "" "" "" "" "" "" = .ok (st1, 0, 0, true) :=
  (C2_write_idempotence "ID1" "ID2"
    ⟨"+2026-01-01T00:00:00Z", 0, 0, 0, 11, wikidataCalendarModel⟩
    ⟨"+2026-02-02T00:00:00Z", 0, 0, 0, 11, wikidataCalendarModel⟩ []
    [("P5008", [⟨"c0", some (.sEntity none (some 2)), [], []⟩])]
    "Q1" "Q2" "" " http://x " "" "" "" "" "" "" ""
    ⟨"c0", some (.sEntity none (some 2)), [], []⟩
    (by decide) (by decide) ⟨['2'], by decide, by decide, by decide, by decide⟩
    (Or.inl (by decide)) (Or.inl (by decide)) (Or.inl (by decide)) (by decide) (by decide)
    (by decide) (by decide)).1

end Wikikuvaajat
